import Mathlib

/-!
# Voter record store (`src/db/voter.go`) and its handlers

A shallow embedding of the in-memory voter store of the repository, of the
HTTP handlers that call it (`src/api/api-handler.go`) and of the legacy copy
of the store (`src/todo-api/db/voter.go`), with the properties of their
operations.

Modelling conventions.

* Go's `uint` is a `Nat`.  The store never does arithmetic on identifiers, it
  only compares them and uses them as map keys, so no wrap-around can occur
  inside the store.
* Go's `map[uint]Voter` is a finite association list with pairwise distinct
  keys (`AList`).  `m[k]` with the comma-ok form is `AList.lookup`,
  `m[k] = x` is `AList.insert`, `delete(m, k)` is `AList.erase` and
  `make(map[uint]Voter)` is the empty list.  The order of the entries stands
  for the (unspecified) iteration order of the Go map.
* A slice is the list of its elements; records are values.  Where the code
  tells the `nil` slice from an allocated one (the result of `GetAllVoters`
  and its use in the handler `ListAllVoters`), the slice is a `Slice`, which
  keeps the difference.  Where it matters that two records can hold slices
  over one backing array (what `AddPoll` does to records other than its
  target), the store is embedded a second time, in `db.mem`, with slice
  headers and a heap of backing arrays.
* A method with receiver `v *VoterList` is a function that takes the store
  and returns what the Go method returns, paired with the store after the
  call.
* `error` is the message given to `errors.New`; `nil` is `none`.
-/

namespace db

/-- Go's `time.Time` as the store sees it: a value that is only stored and
handed back.  The fields follow the Go representation (wall clock word,
extended seconds, optional location name). -/
structure Time where
  wall : Nat
  ext : Int
  loc : Option String
  deriving DecidableEq

/-- The zero value `time.Time{}`. -/
instance : Inhabited Time := ⟨⟨0, 0, none⟩⟩

/-- Go type `type VoterHistory struct`. -/
structure VoterHistory where
  PollId : Nat
  VoteId : Nat
  VoteDate : Time
  deriving DecidableEq

/-- The zero value `VoterHistory{}`. -/
instance : Inhabited VoterHistory := ⟨⟨0, 0, default⟩⟩

/-- Go type `type Voter struct`. -/
structure Voter where
  VoterId : Nat
  Name : String
  Email : String
  VoteHistory : List VoterHistory
  deriving DecidableEq

/-- The zero value `Voter{}`. -/
instance : Inhabited Voter := ⟨⟨0, "", "", []⟩⟩

/-- Go's `error` values built by `errors.New`: the message. -/
abbrev error := String

/-- A Go slice value in which the `nil` slice is kept apart from an allocated
slice: `Slice.nil` is `nil` (what `var x []T` declares), `Slice.mk l` is an
allocated slice holding the elements `l` (`make([]T, 0)` is `Slice.mk []`). -/
inductive Slice (α : Type) where
  | nil : Slice α
  | mk (elems : List α) : Slice α
  deriving DecidableEq

/-- The elements of a slice; the `nil` slice has none. -/
def Slice.toList {α : Type} : Slice α → List α
  | Slice.nil => []
  | Slice.mk l => l

/-- Go's `len(s)`. -/
def Slice.len {α : Type} (s : Slice α) : Nat := s.toList.length

/-- Go's `append(s, x)`: the result is allocated, also when `s` is `nil`. -/
def Slice.append {α : Type} : Slice α → α → Slice α
  | Slice.nil, x => Slice.mk [x]
  | Slice.mk l, x => Slice.mk (l ++ [x])

/-- Go type `type VoterList struct { Voters map[uint]Voter }`. -/
structure VoterList where
  Voters : AList (fun _ : Nat => Voter)
  deriving DecidableEq

/-- Go function `func NewVoterList() (*VoterList, error)`. -/
def NewVoterList : VoterList × Option error :=
  ({ Voters := ∅ }, none)

/-- Go function `func (v *VoterList) AddVoter(voter Voter) error`. -/
def AddVoter (v : VoterList) (voter : Voter) : Option error × VoterList :=
  match v.Voters.lookup voter.VoterId with
  | some _ => (some "voter already exists", v)
  | none => (none, { Voters := v.Voters.insert voter.VoterId voter })

/-- Go function `func (v *VoterList) DeleteVoter(id uint) error`. -/
def DeleteVoter (v : VoterList) (id : Nat) : Option error × VoterList :=
  (none, { Voters := v.Voters.erase id })

/-- Go function `func (v *VoterList) DeleteAll() error`. -/
def DeleteAll (_v : VoterList) : Option error × VoterList :=
  (none, { Voters := ∅ })

/-- Go function `func (v *VoterList) UpdateVoter(voter Voter) error`. -/
def UpdateVoter (v : VoterList) (voter : Voter) : Option error × VoterList :=
  match v.Voters.lookup voter.VoterId with
  | none => (some "voter does not exist", v)
  | some _ => (none, { Voters := v.Voters.insert voter.VoterId voter })

/-- Go function `func (v *VoterList) GetVoter(id uint) (Voter, error)`. -/
def GetVoter (v : VoterList) (id : Nat) : (Voter × Option error) × VoterList :=
  match v.Voters.lookup id with
  | none => ((default, some "voter does not exist"), v)
  | some voter => ((voter, none), v)

/-- Go function `func (v *VoterList) GetVoteHistory(id uint) ([]VoterHistory, error)`. -/
def GetVoteHistory (v : VoterList) (id : Nat) :
    (List VoterHistory × Option error) × VoterList :=
  match v.Voters.lookup id with
  | none => (([], some "voter history does not exist"), v)
  | some voter => ((voter.VoteHistory, none), v)

/-- The `for _, vote := range voter.VoteHistory` loop of
`GetSingleVoteHistory`: the first iteration whose `vote.PollId == pollId`
returns that `vote`; `none` when the loop runs to its end. -/
def GetSingleVoteHistory.scan (pollId : Nat) : List VoterHistory → Option VoterHistory
  | [] => none
  | vote :: rest => if vote.PollId = pollId then some vote else scan pollId rest

/-- Go function `func (v *VoterList) GetSingleVoteHistory(voterId uint, pollId uint)
(*VoterHistory, error)`.  The returned pointer is `none` for `nil` and
`some x` for a pointer to `x`. -/
def GetSingleVoteHistory (v : VoterList) (voterId pollId : Nat) :
    (Option VoterHistory × Option error) × VoterList :=
  match v.Voters.lookup voterId with
  | none => ((some default, some "that voter does not exist"), v)
  | some voter =>
    match GetSingleVoteHistory.scan pollId voter.VoteHistory with
    | some vote => ((some vote, none), v)
    | none => ((none, some "poll does not exist for the specified voter"), v)

/-- Go function `func (v *VoterList) AddPoll(voterId uint, poll VoterHistory) error`. -/
def AddPoll (v : VoterList) (voterId : Nat) (poll : VoterHistory) :
    Option error × VoterList :=
  match v.Voters.lookup voterId with
  | none => (some "voter not found", v)
  | some voter =>
    (none, { Voters := v.Voters.insert voterId
                ({ voter with VoteHistory := voter.VoteHistory ++ [poll] }) })

/-- Go function `func (v *VoterList) GetAllVoters() ([]Voter, error)`:
`var voterList []Voter` starts as the `nil` slice and the range loop appends
every record of the map.  The loop visits the entries in the order of the
association list, which stands for the order Go happens to choose. -/
def GetAllVoters (v : VoterList) : (Slice Voter × Option error) × VoterList :=
  ((v.Voters.entries.foldl (fun voterList e => voterList.append e.2) Slice.nil, none), v)

/-! ## Sequences of Store calls -/

/-- One call of a Store method, with its arguments. -/
inductive Op where
  | addVoter (voter : Voter) : Op
  | updateVoter (voter : Voter) : Op
  | deleteVoter (id : Nat) : Op
  | deleteAll : Op
  | addPoll (voterId : Nat) (poll : VoterHistory) : Op
  | getVoter (id : Nat) : Op
  | getAllVoters : Op
  | getVoteHistory (id : Nat) : Op
  | getSingleVoteHistory (voterId pollId : Nat) : Op
  deriving DecidableEq

/-- The error a call returns and the store after it. -/
def Op.apply (s : VoterList) : Op → Option error × VoterList
  | Op.addVoter r => AddVoter s r
  | Op.updateVoter r => UpdateVoter s r
  | Op.deleteVoter id => DeleteVoter s id
  | Op.deleteAll => DeleteAll s
  | Op.addPoll id poll => AddPoll s id poll
  | Op.getVoter id => ((GetVoter s id).1.2, (GetVoter s id).2)
  | Op.getAllVoters => ((GetAllVoters s).1.2, (GetAllVoters s).2)
  | Op.getVoteHistory id => ((GetVoteHistory s id).1.2, (GetVoteHistory s id).2)
  | Op.getSingleVoteHistory id p =>
    ((GetSingleVoteHistory s id p).1.2, (GetSingleVoteHistory s id p).2)

/-- The store after the calls `ops` made one after the other on `s`. -/
def run (s : VoterList) (ops : List Op) : VoterList :=
  ops.foldl (fun st op => (op.apply st).2) s

/-- The store after `AddPoll id v` for each `v` of `vs` in turn. -/
def addPolls (s : VoterList) (id : Nat) (vs : List VoterHistory) : VoterList :=
  vs.foldl (fun st v => (AddPoll st id v).2) s

/-! ## Sample data

The records of the scenario of the specification: voter 1, named "A", with
one history entry for poll 1 and one for poll 2. -/

/-- A history entry with the zero date. -/
def entry (pollId voteId : Nat) : VoterHistory :=
  { PollId := pollId, VoteId := voteId, VoteDate := default }

/-- Voter 1 of the scenario. -/
def voterA : Voter :=
  { VoterId := 1, Name := "A", Email := "a@x.com", VoteHistory := [entry 1 1, entry 2 2] }

/-- Another record with the same identifier as `voterA`. -/
def voterA2 : Voter :=
  { VoterId := 1, Name := "B", Email := "b@x.com", VoteHistory := [entry 7 7] }

/-- The record the test suite loads under identifier `id`, with fixed name
and email. -/
def testVoter (id : Nat) : Voter :=
  { VoterId := id, Name := "N", Email := "n@x.com",
    VoteHistory := [entry id id, entry (id + 1) (id + 1)] }

/-- The empty store, as `NewVoterList` returns it. -/
def emptyStore : VoterList := NewVoterList.1

/-- The store that holds `voterA` only. -/
def storeA : VoterList := (AddVoter emptyStore voterA).2

/-- Voter 3, whose history has two entries for poll 4, the one with vote 10
added before the one with vote 11. -/
def voterDup : Voter :=
  { VoterId := 3, Name := "D", Email := "d@x.com",
    VoteHistory := [entry 1 1, entry 4 10, entry 2 2, entry 4 11] }

/-- The store that holds `voterDup` only. -/
def storeDup : VoterList := (AddVoter emptyStore voterDup).2

/-- The store that holds one voter, with identifier `2^64 - 5`. -/
def storeHigh : VoterList := (AddVoter emptyStore (testVoter 18446744073709551611)).2

/-- The store after the test suite has loaded voters 0, 1 and 2. -/
def storeLoaded : VoterList :=
  (AddVoter (AddVoter (AddVoter emptyStore (testVoter 0)).2 (testVoter 1)).2 (testVoter 2)).2

/-! ## The store with its slices in memory

In Go a `[]VoterHistory` is a header (backing array, start, length,
capacity), and `append` writes into the backing array when the capacity
allows.  Here the map holds the records with their slice headers and the
backing arrays live in a heap, so that two records whose histories lie in one
array can be told from two records with equal histories. -/

namespace mem

/-- A Go slice header: the backing array (its address in the heap), the index
in that array where the slice starts, the length and the capacity. -/
structure SliceHeader where
  array : Nat
  offset : Nat
  len : Nat
  cap : Nat
  deriving DecidableEq

/-- The heap of backing arrays: the array at address `a` is the list at
index `a`; its cells beyond the length of a slice hold whatever was written
there last. -/
abbrev Heap := List (List VoterHistory)

/-- The elements a slice shows: `len` cells of its array from `offset` on. -/
def SliceHeader.elems (heap : Heap) (h : SliceHeader) : List VoterHistory :=
  (((heap[h.array]?).getD []).drop h.offset).take h.len

/-- Go type `type Voter struct`, with `VoteHistory` as the slice header the
struct holds. -/
structure Voter where
  VoterId : Nat
  Name : String
  Email : String
  VoteHistory : SliceHeader
  deriving DecidableEq

/-- The record a caller reads from a stored struct: the fields, and the
elements its history slice shows in the heap. -/
def Voter.read (heap : Heap) (c : Voter) : db.Voter :=
  { VoterId := c.VoterId, Name := c.Name, Email := c.Email,
    VoteHistory := c.VoteHistory.elems heap }

/-- Go type `type VoterList struct { Voters map[uint]Voter }`, together with the
heap that the slice headers of its records point into. -/
structure VoterList where
  Voters : AList (fun _ : Nat => Voter)
  heap : Heap

/-- Go's `append(s, x)` for a slice `s` with header `h`.  With `len < cap` the
element is written into the backing array right after the slice and the
result is the same array with the length one more.  Otherwise a new array is
allocated (at the next free address), the elements are copied into it,
`x` is put after them, and the result is a slice over the new array; its
capacity is what the runtime's growth rule `growth` gives for the old
capacity, and at least the new length. -/
def append (growth : Nat → Nat) (heap : Heap) (h : SliceHeader) (x : VoterHistory) :
    Heap × SliceHeader :=
  if h.len < h.cap then
    (heap.set h.array (((heap[h.array]?).getD []).set (h.offset + h.len) x),
      { array := h.array, offset := h.offset, len := h.len + 1, cap := h.cap })
  else
    (heap ++ [h.elems heap ++ x ::
        List.replicate (max (growth h.cap) (h.len + 1) - (h.len + 1)) default],
      { array := heap.length, offset := 0, len := h.len + 1,
        cap := max (growth h.cap) (h.len + 1) })

/-- Go function `func (v *VoterList) AddVoter(voter Voter) error`: the struct is
stored as given, slice header included; the heap is not touched. -/
def AddVoter (v : VoterList) (voter : Voter) : Option error × VoterList :=
  match v.Voters.lookup voter.VoterId with
  | some _ => (some "voter already exists", v)
  | none => (none, { Voters := v.Voters.insert voter.VoterId voter, heap := v.heap })

/-- Go function `func (v *VoterList) DeleteVoter(id uint) error`. -/
def DeleteVoter (v : VoterList) (id : Nat) : Option error × VoterList :=
  (none, { Voters := v.Voters.erase id, heap := v.heap })

/-- Go function `func (v *VoterList) UpdateVoter(voter Voter) error`. -/
def UpdateVoter (v : VoterList) (voter : Voter) : Option error × VoterList :=
  match v.Voters.lookup voter.VoterId with
  | none => (some "voter does not exist", v)
  | some _ => (none, { Voters := v.Voters.insert voter.VoterId voter, heap := v.heap })

/-- Go function `func (v *VoterList) GetVoter(id uint) (Voter, error)`; the
record returned is given as the caller reads it, its history being the
elements the returned slice shows. -/
def GetVoter (v : VoterList) (id : Nat) : (db.Voter × Option error) × VoterList :=
  match v.Voters.lookup id with
  | none => ((default, some "voter does not exist"), v)
  | some voter => ((voter.read v.heap, none), v)

/-- Go function `func (v *VoterList) AddPoll(voterId uint, poll VoterHistory) error`:
`voter.VoteHistory = append(voter.VoteHistory, poll)` on the copy read from
the map, then the copy is written back under `voterId`. -/
def AddPoll (growth : Nat → Nat) (v : VoterList) (voterId : Nat) (poll : VoterHistory) :
    Option error × VoterList :=
  match v.Voters.lookup voterId with
  | none => (some "voter not found", v)
  | some voter =>
    (none,
      { Voters := v.Voters.insert voterId
          ({ VoterId := voter.VoterId, Name := voter.Name, Email := voter.Email,
             VoteHistory := (append growth v.heap voter.VoteHistory poll).2 }),
        heap := (append growth v.heap voter.VoteHistory poll).1 })

/-- A growth rule: the capacity doubles. -/
def double (c : Nat) : Nat := 2 * c

/-- A backing array of 10 cells whose first two hold entries for polls 1 and
2, as `make([]VoterHistory, 2, 10)` filled in would be. -/
def sharedArray : List VoterHistory :=
  [entry 1 1, entry 2 2] ++ List.replicate 8 default

/-- The slice of length 2 and capacity 10 over the array at address 0. -/
def shared : SliceHeader := { array := 0, offset := 0, len := 2, cap := 10 }

/-- The store after `AddVoter` of voter 1 and of voter 2, both given the slice
`shared` as their history. -/
def storeShared : VoterList :=
  (AddVoter
    (AddVoter { Voters := ∅, heap := [sharedArray] }
      { VoterId := 1, Name := "A", Email := "a@x.com", VoteHistory := shared }).2
    { VoterId := 2, Name := "B", Email := "b@x.com", VoteHistory := shared }).2

/-- The store in which voter 1 and voter 2 have their histories in two
arrays of their own, at addresses 0 and 1. -/
def storeApart : VoterList :=
  (AddVoter
    (AddVoter { Voters := ∅, heap := [sharedArray, sharedArray] }
      { VoterId := 1, Name := "A", Email := "a@x.com", VoteHistory := shared }).2
    { VoterId := 2, Name := "B", Email := "b@x.com",
      VoteHistory := { array := 1, offset := 0, len := 2, cap := 10 } }).2

/-- The store `storeShared` after `AddPoll 1` of an entry for poll 50. -/
def storeSharedPolled : VoterList := (AddPoll double storeShared 1 (entry 50 50)).2

end mem

end db

/-! ## The legacy store (`src/todo-api/db/voter.go`)

The legacy package declares the same types `VoterHistory`, `Voter` and
`VoterList` field by field; its operations are embedded over the types of
`db`. -/

namespace todoapi

/-- Go function `func NewVoterList() (*VoterList, error)` of the legacy store. -/
def NewVoterList : db.VoterList × Option db.error :=
  ({ Voters := ∅ }, none)

/-- Go function `func (v *VoterList) DeleteVoter(id uint) error` of the legacy
store.  Its doc comment asks for a check that the item exists; the body is
`delete(v.Voters, id)` followed by `return nil`. -/
def DeleteVoter (v : db.VoterList) (id : Nat) : Option db.error × db.VoterList :=
  (none, { Voters := v.Voters.erase id })

/-- Go function `func (v *VoterList) AddVoter(voter Voter) error` of the legacy
store. -/
def AddVoter (v : db.VoterList) (voter : db.Voter) : Option db.error × db.VoterList :=
  match v.Voters.lookup voter.VoterId with
  | some _ => (some "voter already exists", v)
  | none => (none, { Voters := v.Voters.insert voter.VoterId voter })

/-- Go function `func (v *VoterList) DeleteAll() error` of the legacy store. -/
def DeleteAll (_v : db.VoterList) : Option db.error × db.VoterList :=
  (none, { Voters := ∅ })

/-- Go function `func (v *VoterList) UpdateVoter(voter Voter) error` of the
legacy store. -/
def UpdateVoter (v : db.VoterList) (voter : db.Voter) : Option db.error × db.VoterList :=
  match v.Voters.lookup voter.VoterId with
  | none => (some "voter does not exist", v)
  | some _ => (none, { Voters := v.Voters.insert voter.VoterId voter })

/-- Go function `func (v *VoterList) GetVoter(id uint) (Voter, error)` of the
legacy store. -/
def GetVoter (v : db.VoterList) (id : Nat) : (db.Voter × Option db.error) × db.VoterList :=
  match v.Voters.lookup id with
  | none => ((default, some "voter does not exist"), v)
  | some voter => ((voter, none), v)

/-- Go function `func (v *VoterList) ChangeVoterDoneStatus(id uint, value bool)
error` of the legacy store, which the other store does not have: it returns
"not implemented" whatever it is given. -/
def ChangeVoterDoneStatus (v : db.VoterList) (_id : Nat) (_value : Bool) :
    Option db.error × db.VoterList :=
  (some "not implemented", v)

/-- Go function `func (v *VoterList) GetAllVoters() ([]Voter, error)` of the
legacy store: the `nil` slice `var voterList []Voter` and the range loop that
appends every record, in the order of the association list. -/
def GetAllVoters (v : db.VoterList) :
    (db.Slice db.Voter × Option db.error) × db.VoterList :=
  ((v.Voters.entries.foldl (fun voterList e => voterList.append e.2) db.Slice.nil, none), v)

end todoapi

/-! ## Go library functions used by the handlers -/

/-- Go's conversion `uint(x)` of an `int` to `uint`, both 64 bits wide: the
value modulo `2^64`. -/
def uint (x : Int) : Nat := (x % 2 ^ 64).toNat

namespace strconv

/-- The digit loop of `strconv.Atoi`: `n = n*10 + int(ch - '0')` for each byte,
and a syntax error (`none`) at the first byte that is not a decimal digit. -/
def Atoi.digits : Nat → List Char → Option Nat
  | n, [] => some n
  | n, ch :: rest =>
    if ch.isDigit then Atoi.digits (n * 10 + (ch.toNat - 48)) rest else none

/-- Go's `strconv.Atoi` (standard library), for a 64-bit `int`; `none` stands
for a non-nil error.  An optional leading `+` or `-` is taken off, what
is left must be one or more decimal digits (no underscores in base 10), and
the signed value must lie in the range of `int`, from `-2^63` to `2^63 - 1`. -/
def Atoi (s : String) : Option Int :=
  let body :=
    if s.data.head? = some '-' ∨ s.data.head? = some '+' then s.data.tail else s.data
  if body = [] then none
  else
    match Atoi.digits 0 body with
    | none => none
    | some n =>
      if s.data.head? = some '-' then
        (if n ≤ 2 ^ 63 then some (-(n : Int)) else none)
      else
        (if n < 2 ^ 63 then some (n : Int) else none)

/-- The characters of a path segment once an optional leading `+` or `-` is
taken off. -/
def unsignedPart (seg : String) : List Char :=
  if seg.data.head? = some '-' ∨ seg.data.head? = some '+' then seg.data.tail else seg.data

/-- The number a list of decimal digits denotes. -/
def decimalValue (cs : List Char) : Nat :=
  cs.foldl (fun n c => n * 10 + (c.toNat - 48)) 0

/-- The segment denotes a decimal integer: an optional sign followed by one or
more decimal digits. -/
def isDecimalInt (seg : String) : Bool :=
  !(unsignedPart seg).isEmpty && (unsignedPart seg).all Char.isDigit

/-- The segment denotes a non-negative decimal integer in the plain way: one or
more decimal digits, no sign. -/
def isDecimalNat (seg : String) : Bool :=
  !seg.data.isEmpty && seg.data.all Char.isDigit

end strconv

namespace http

/-- Go constant `http.StatusOK`. -/
abbrev StatusOK : Nat := 200

/-- Go constant `http.StatusBadRequest`. -/
abbrev StatusBadRequest : Nat := 400

/-- Go constant `http.StatusNotFound`. -/
abbrev StatusNotFound : Nat := 404

/-- Go constant `http.StatusInternalServerError`. -/
abbrev StatusInternalServerError : Nat := 500

end http

/-! ## The handlers (`src/api/api-handler.go`)

A handler takes the `VoterAPI`, the path segments `c.Params` gives it and,
where it reads one, the request body as `c.BodyParser` decodes it (`none`
when `BodyParser` returns an error).  It returns the status and the value
sent, the Store calls it made, in order, and the `VoterAPI` after the call.
A returned `fiber.NewError(code, ...)` is sent by fiber with status `code`;
`c.JSON(x)` sends `x` with status 200. -/

namespace api

/-- Go type `type VoterAPI struct { db *db.VoterList }`. -/
structure VoterAPI where
  db : db.VoterList
  deriving DecidableEq

/-- The value a handler sends: the message of a `fiber.NewError`, the text of
`SendString`, or the value handed to `c.JSON`. -/
inductive Body where
  | failure (message : String) : Body
  | text (s : String) : Body
  | voters (l : db.Slice db.Voter) : Body
  | voter (x : db.Voter) : Body
  | history (l : List db.VoterHistory) : Body
  | poll (p : Option db.VoterHistory) : Body
  | id (n : Int) : Body
  deriving DecidableEq

/-- What a handler call amounts to. -/
structure Outcome where
  status : Nat
  body : Body
  calls : List db.Op
  after : VoterAPI
  deriving DecidableEq

/-- Go function `func (v *VoterAPI) ListAllVoters(c *fiber.Ctx) error`. -/
def VoterAPI.ListAllVoters (v : VoterAPI) : Outcome :=
  let r := db.GetAllVoters v.db
  match r.1.2 with
  | some _ =>
    { status := http.StatusNotFound, body := Body.failure "Error Getting All Items",
      calls := [db.Op.getAllVoters], after := { db := r.2 } }
  | none =>
    let voterList := if r.1.1 = db.Slice.nil then db.Slice.mk [] else r.1.1
    { status := http.StatusOK, body := Body.voters voterList,
      calls := [db.Op.getAllVoters], after := { db := r.2 } }

/-- Go function `func (v *VoterAPI) GetVoter(c *fiber.Ctx) error`; `idStr` is
`c.Params("id")`. -/
def VoterAPI.GetVoter (v : VoterAPI) (idStr : String) : Outcome :=
  match strconv.Atoi idStr with
  | none =>
    { status := http.StatusBadRequest, body := Body.failure "Bad Request",
      calls := [], after := v }
  | some id =>
    let r := db.GetVoter v.db (uint id)
    match r.1.2 with
    | some _ =>
      { status := http.StatusNotFound, body := Body.failure "Not Found",
        calls := [db.Op.getVoter (uint id)], after := { db := r.2 } }
    | none =>
      { status := http.StatusOK, body := Body.voter r.1.1,
        calls := [db.Op.getVoter (uint id)], after := { db := r.2 } }

/-- Go function `func (v *VoterAPI) GetPollHistoryFromVoter(c *fiber.Ctx) error`;
`idStr` is `c.Params("id")`. -/
def VoterAPI.GetPollHistoryFromVoter (v : VoterAPI) (idStr : String) : Outcome :=
  match strconv.Atoi idStr with
  | none =>
    { status := http.StatusBadRequest, body := Body.failure "Bad Request",
      calls := [], after := v }
  | some id =>
    let r := db.GetVoteHistory v.db (uint id)
    match r.1.2 with
    | some _ =>
      { status := http.StatusNotFound, body := Body.failure "Not Found",
        calls := [db.Op.getVoteHistory (uint id)], after := { db := r.2 } }
    | none =>
      { status := http.StatusOK, body := Body.history r.1.1,
        calls := [db.Op.getVoteHistory (uint id)], after := { db := r.2 } }

/-- Go function `func (v *VoterAPI) GetSinglePollFromVoter(c *fiber.Ctx) error`;
`voterIdStr` is `c.Params("id")` and `pollIdStr` is `c.Params("pollid")`. -/
def VoterAPI.GetSinglePollFromVoter (v : VoterAPI) (voterIdStr pollIdStr : String) :
    Outcome :=
  match strconv.Atoi voterIdStr with
  | none =>
    { status := http.StatusBadRequest, body := Body.failure "Bad Request",
      calls := [], after := v }
  | some voterid =>
    match strconv.Atoi pollIdStr with
    | none =>
      { status := http.StatusBadRequest, body := Body.failure "Bad Request",
        calls := [], after := v }
    | some pollid =>
      let r := db.GetSingleVoteHistory v.db (uint voterid) (uint pollid)
      match r.1.2 with
      | some _ =>
        { status := http.StatusNotFound, body := Body.failure "Not Found",
          calls := [db.Op.getSingleVoteHistory (uint voterid) (uint pollid)],
          after := { db := r.2 } }
      | none =>
        { status := http.StatusOK, body := Body.poll r.1.1,
          calls := [db.Op.getSingleVoteHistory (uint voterid) (uint pollid)],
          after := { db := r.2 } }

/-- Go function `func (v *VoterAPI) AddSinglePollToVoter(c *fiber.Ctx) error`;
`voterIdStr` is `c.Params("id")` and `parsed` is what `c.BodyParser(&poll)`
decodes. -/
def VoterAPI.AddSinglePollToVoter (v : VoterAPI) (voterIdStr : String)
    (parsed : Option db.VoterHistory) : Outcome :=
  match strconv.Atoi voterIdStr with
  | none =>
    { status := http.StatusBadRequest, body := Body.failure "Bad Request",
      calls := [], after := v }
  | some voterId =>
    match parsed with
    | none =>
      { status := http.StatusBadRequest, body := Body.failure "Bad Request",
        calls := [], after := v }
    | some poll =>
      let r := db.AddPoll v.db (uint voterId) poll
      match r.1 with
      | some _ =>
        { status := http.StatusNotFound, body := Body.failure "Failed to add poll to voter",
          calls := [db.Op.addPoll (uint voterId) poll], after := { db := r.2 } }
      | none =>
        { status := http.StatusOK, body := Body.id voterId,
          calls := [db.Op.addPoll (uint voterId) poll], after := { db := r.2 } }

/-- Go function `func (v *VoterAPI) AddVoter(c *fiber.Ctx) error`; `parsed` is
what `c.BodyParser(&voter)` decodes. -/
def VoterAPI.AddVoter (v : VoterAPI) (parsed : Option db.Voter) : Outcome :=
  match parsed with
  | none =>
    { status := http.StatusBadRequest, body := Body.failure "Bad Request",
      calls := [], after := v }
  | some voter =>
    let r := db.AddVoter v.db voter
    match r.1 with
    | some _ =>
      { status := http.StatusInternalServerError,
        body := Body.failure "Internal Server Error",
        calls := [db.Op.addVoter voter], after := { db := r.2 } }
    | none =>
      { status := http.StatusOK, body := Body.voter voter,
        calls := [db.Op.addVoter voter], after := { db := r.2 } }

/-- Go function `func (v *VoterAPI) UpdateVoter(c *fiber.Ctx) error`; `parsed`
is what `c.BodyParser(&voter)` decodes. -/
def VoterAPI.UpdateVoter (v : VoterAPI) (parsed : Option db.Voter) : Outcome :=
  match parsed with
  | none =>
    { status := http.StatusBadRequest, body := Body.failure "Bad Request",
      calls := [], after := v }
  | some voter =>
    let r := db.UpdateVoter v.db voter
    match r.1 with
    | some _ =>
      { status := http.StatusInternalServerError,
        body := Body.failure "Internal Server Error",
        calls := [db.Op.updateVoter voter], after := { db := r.2 } }
    | none =>
      { status := http.StatusOK, body := Body.voter voter,
        calls := [db.Op.updateVoter voter], after := { db := r.2 } }

/-- Go function `func (v *VoterAPI) DeleteVoter(c *fiber.Ctx) error`; `idStr` is
`c.Params("id")`, which `c.ParamsInt("id")` hands to `strconv.Atoi`. -/
def VoterAPI.DeleteVoter (v : VoterAPI) (idStr : String) : Outcome :=
  match strconv.Atoi idStr with
  | none =>
    { status := http.StatusBadRequest, body := Body.failure "Bad Request",
      calls := [], after := v }
  | some id =>
    let r := db.DeleteVoter v.db (uint id)
    match r.1 with
    | some _ =>
      { status := http.StatusInternalServerError,
        body := Body.failure "Internal Server Error",
        calls := [db.Op.deleteVoter (uint id)], after := { db := r.2 } }
    | none =>
      { status := http.StatusOK, body := Body.text "Delete OK",
        calls := [db.Op.deleteVoter (uint id)], after := { db := r.2 } }

end api

namespace db

/-! ## Basic facts about the map operations -/

theorem lookup_some_of_mem {s : VoterList} {id : Nat} (h : id ∈ s.Voters) :
    ∃ r, s.Voters.lookup id = some r := by
  have h1 : (s.Voters.lookup id).isSome := AList.lookup_isSome.mpr h
  exact Option.isSome_iff_exists.mp h1

theorem mem_of_lookup_some {s : VoterList} {id : Nat} {r : Voter}
    (h : s.Voters.lookup id = some r) : id ∈ s.Voters := by
  apply AList.lookup_isSome.mp
  rw [h]
  rfl

theorem erase_absent (m : AList (fun _ : Nat => Voter)) (id : Nat) (h : id ∉ m) :
    m.erase id = m := by
  apply AList.ext
  exact List.kerase_of_not_mem_keys h

theorem AddVoter_absent (s : VoterList) (r : Voter) (h : r.VoterId ∉ s.Voters) :
    AddVoter s r = (none, { Voters := s.Voters.insert r.VoterId r }) := by
  have h0 : s.Voters.lookup r.VoterId = none := AList.lookup_eq_none.mpr h
  simp [AddVoter, h0]

theorem AddVoter_present (s : VoterList) (r : Voter) (h : r.VoterId ∈ s.Voters) :
    AddVoter s r = (some "voter already exists", s) := by
  obtain ⟨r0, h0⟩ := lookup_some_of_mem h
  simp [AddVoter, h0]

theorem UpdateVoter_absent (s : VoterList) (r : Voter) (h : r.VoterId ∉ s.Voters) :
    UpdateVoter s r = (some "voter does not exist", s) := by
  have h0 : s.Voters.lookup r.VoterId = none := AList.lookup_eq_none.mpr h
  simp [UpdateVoter, h0]

theorem UpdateVoter_present (s : VoterList) (r : Voter) (h : r.VoterId ∈ s.Voters) :
    UpdateVoter s r = (none, { Voters := s.Voters.insert r.VoterId r }) := by
  obtain ⟨r0, h0⟩ := lookup_some_of_mem h
  simp [UpdateVoter, h0]

theorem GetVoter_of_lookup (s : VoterList) (id : Nat) (r : Voter)
    (h : s.Voters.lookup id = some r) : GetVoter s id = ((r, none), s) := by
  simp [GetVoter, h]

theorem GetVoter_insert_same (m : AList (fun _ : Nat => Voter)) (id : Nat) (r : Voter) :
    (GetVoter { Voters := m.insert id r } id).1 = (r, none) := by
  simp [GetVoter, AList.lookup_insert]

theorem GetVoter_absent (s : VoterList) (id : Nat) (h : id ∉ s.Voters) :
    GetVoter s id = ((default, some "voter does not exist"), s) := by
  have h0 : s.Voters.lookup id = none := AList.lookup_eq_none.mpr h
  simp [GetVoter, h0]

/-! ## The scan of a history -/

theorem scan_none_iff (p : Nat) (l : List VoterHistory) :
    GetSingleVoteHistory.scan p l = none ↔ ∀ e ∈ l, e.PollId ≠ p := by
  induction l with
  | nil => simp [GetSingleVoteHistory.scan]
  | cons a t ih =>
    by_cases ha : a.PollId = p
    · simp [GetSingleVoteHistory.scan, ha]
    · simp [GetSingleVoteHistory.scan, ha, ih]

theorem scan_first (p : Nat) (l : List VoterHistory) (h : ∃ e ∈ l, e.PollId = p) :
    ∃ (i : Nat) (e : VoterHistory), l[i]? = some e ∧ e.PollId = p ∧
      (∀ (j : Nat) (x : VoterHistory), j < i → l[j]? = some x → x.PollId ≠ p) ∧
      GetSingleVoteHistory.scan p l = some e := by
  induction l with
  | nil => simp at h
  | cons a t ih =>
    by_cases ha : a.PollId = p
    · refine ⟨0, a, by simp, ha, ?_, ?_⟩
      · intro j x hj
        omega
      · simp [GetSingleVoteHistory.scan, ha]
    · have ht : ∃ e ∈ t, e.PollId = p := by
        obtain ⟨e, he, hep⟩ := h
        rcases List.mem_cons.mp he with heq | hmem
        · rw [heq] at hep
          exact absurd hep ha
        · exact ⟨e, hmem, hep⟩
      obtain ⟨i, e, hie, hep, hmin, hscan⟩ := ih ht
      refine ⟨i + 1, e, ?_, hep, ?_, ?_⟩
      · simpa using hie
      · intro j x hj hjx
        cases j with
        | zero =>
          simp at hjx
          rw [← hjx]
          exact ha
        | succ k =>
          have hk : k < i := by omega
          exact hmin k x hk (by simpa using hjx)
      · simp [GetSingleVoteHistory.scan, ha, hscan]

theorem scan_append_cons (p : Nat) (pre post : List VoterHistory) (a : VoterHistory)
    (hpre : ∀ x ∈ pre, x.PollId ≠ p) (ha : a.PollId = p) :
    GetSingleVoteHistory.scan p (pre ++ a :: post) = some a := by
  induction pre with
  | nil => simp [GetSingleVoteHistory.scan, ha]
  | cons b t ih =>
    have hb : b.PollId ≠ p := hpre b (List.mem_cons_self b t)
    have ht : ∀ x ∈ t, x.PollId ≠ p := fun x hx => hpre x (List.mem_cons_of_mem b hx)
    simp [GetSingleVoteHistory.scan, hb, ih ht]

/-! ## AddVoter -/

/-- C1: `AddVoter r` returns the error "voter already exists" exactly when
`r.VoterId` is already a key of the store, and returns no error exactly when
it is not; when it fails the store is unchanged; and after a successful
`AddVoter r0`, an `AddVoter r` with the same identifier fails, leaves the
store as it was and `GetVoter` still returns `r0`. -/
theorem AddVoter_fails_iff_present (s : VoterList) (r : Voter) :
    ((AddVoter s r).1 = some "voter already exists" ↔ r.VoterId ∈ s.Voters) ∧
    ((AddVoter s r).1 = none ↔ r.VoterId ∉ s.Voters) ∧
    ((AddVoter s r).1 ≠ none → (AddVoter s r).2 = s) ∧
    (∀ r0 : Voter, r0.VoterId = r.VoterId → (AddVoter s r0).1 = none →
      (AddVoter (AddVoter s r0).2 r).1 = some "voter already exists" ∧
      (AddVoter (AddVoter s r0).2 r).2 = (AddVoter s r0).2 ∧
      (GetVoter (AddVoter (AddVoter s r0).2 r).2 r.VoterId).1 = (r0, none)) := by
  by_cases h : r.VoterId ∈ s.Voters
  · refine ⟨?_, ?_, ?_, ?_⟩
    · simp [AddVoter_present s r h, h]
    · simp [AddVoter_present s r h, h]
    · simp [AddVoter_present s r h]
    · intro r0 hid h0
      rw [← hid] at h
      simp [AddVoter_present s r0 h] at h0
  · refine ⟨?_, ?_, ?_, ?_⟩
    · simp [AddVoter_absent s r h, h]
    · simp [AddVoter_absent s r h, h]
    · simp [AddVoter_absent s r h]
    · intro r0 hid _
      have h0 : r0.VoterId ∉ s.Voters := by rw [hid]; exact h
      rw [AddVoter_absent s r0 h0]
      have hin : r.VoterId ∈ (AList.insert r0.VoterId r0 s.Voters) := by
        rw [AList.mem_insert]; exact Or.inl hid.symm
      have hin2 : r.VoterId ∈ ({ Voters := AList.insert r0.VoterId r0 s.Voters } : VoterList).Voters :=
        hin
      rw [AddVoter_present _ r hin2]
      refine ⟨rfl, rfl, ?_⟩
      rw [← hid]
      exact GetVoter_insert_same s.Voters r0.VoterId r0

/-- C1 on the scenario: adding a second record with identifier 1 to the store
that holds `voterA` fails and `voterA` stays. -/
theorem AddVoter_fails_iff_present_witness :
    (AddVoter storeA voterA2).1 = some "voter already exists" ∧
    (AddVoter storeA voterA2).2 = storeA ∧
    (GetVoter (AddVoter storeA voterA2).2 1).1 = (voterA, none) := by
  have h := AddVoter_fails_iff_present emptyStore voterA2
  have h1 := h.2.2.2 voterA rfl (by decide)
  exact ⟨h1.1, h1.2.1, h1.2.2⟩

/-- C2: if `AddVoter r` succeeds, `GetVoter r.VoterId` on the resulting store
returns `r` (the same identifier, name, email and history) and no error. -/
theorem GetVoter_after_AddVoter (s : VoterList) (r : Voter)
    (h : (AddVoter s r).1 = none) :
    (GetVoter (AddVoter s r).2 r.VoterId).1 = (r, none) ∧
    (GetVoter (AddVoter s r).2 r.VoterId).1.1.VoterId = r.VoterId ∧
    (GetVoter (AddVoter s r).2 r.VoterId).1.1.Name = r.Name ∧
    (GetVoter (AddVoter s r).2 r.VoterId).1.1.Email = r.Email ∧
    (GetVoter (AddVoter s r).2 r.VoterId).1.1.VoteHistory = r.VoteHistory := by
  have habs : r.VoterId ∉ s.Voters := by
    intro hin
    simp [AddVoter_present s r hin] at h
  have hget : (GetVoter (AddVoter s r).2 r.VoterId).1 = (r, none) := by
    rw [AddVoter_absent s r habs]
    exact GetVoter_insert_same s.Voters r.VoterId r
  rw [hget]
  exact ⟨rfl, rfl, rfl, rfl, rfl⟩

/-- C2 on the scenario: `voterA` added to the empty store is read back. -/
theorem GetVoter_after_AddVoter_witness :
    (AddVoter emptyStore voterA).1 = none ∧
    (GetVoter (AddVoter emptyStore voterA).2 1).1 = (voterA, none) :=
  ⟨by decide, (GetVoter_after_AddVoter emptyStore voterA (by decide)).1⟩

/-! ## UpdateVoter -/

/-- C3: when `r.VoterId` is not a key of the store, `UpdateVoter r` returns the
error "voter does not exist" and the store after the call is the store before
it; in particular the identifier is still not a key. -/
theorem UpdateVoter_absent_fails (s : VoterList) (r : Voter)
    (h : r.VoterId ∉ s.Voters) :
    UpdateVoter s r = (some "voter does not exist", s) ∧
    r.VoterId ∉ (UpdateVoter s r).2.Voters := by
  rw [UpdateVoter_absent s r h]
  exact ⟨rfl, h⟩

/-- C3 on the scenario: updating voter 1 in the empty store fails. -/
theorem UpdateVoter_absent_fails_witness :
    voterA.VoterId ∉ emptyStore.Voters ∧
    UpdateVoter emptyStore voterA = (some "voter does not exist", emptyStore) :=
  ⟨by decide, (UpdateVoter_absent_fails emptyStore voterA (by decide)).1⟩

/-- C4: when `r.VoterId` is a key of the store, `UpdateVoter r` returns no
error; afterwards `GetVoter r.VoterId` returns exactly `r`, and
`GetVoteHistory r.VoterId` returns exactly the history of `r`, whatever was
stored before; the keys of the store are the same as before (the same
identifiers, each once). -/
theorem UpdateVoter_replaces (s : VoterList) (r : Voter)
    (h : r.VoterId ∈ s.Voters) :
    (UpdateVoter s r).1 = none ∧
    (GetVoter (UpdateVoter s r).2 r.VoterId).1 = (r, none) ∧
    (GetVoteHistory (UpdateVoter s r).2 r.VoterId).1 = (r.VoteHistory, none) ∧
    (∀ k : Nat, k ∈ (UpdateVoter s r).2.Voters ↔ k ∈ s.Voters) ∧
    List.Perm (UpdateVoter s r).2.Voters.keys s.Voters.keys := by
  rw [UpdateVoter_present s r h]
  refine ⟨rfl, GetVoter_insert_same s.Voters r.VoterId r, ?_, ?_, ?_⟩
  · simp [GetVoteHistory, AList.lookup_insert]
  · intro k
    show k ∈ AList.insert r.VoterId r s.Voters ↔ k ∈ s.Voters
    rw [AList.mem_insert]
    constructor
    · rintro (hk | hk)
      · rw [hk]; exact h
      · exact hk
    · intro hk
      exact Or.inr hk
  · show List.Perm (AList.insert r.VoterId r s.Voters).keys s.Voters.keys
    rw [AList.keys_insert]
    exact (List.perm_cons_erase (AList.mem_keys.mp h)).symm

/-- C4 on the scenario: updating voter 1 with `voterA2` replaces `voterA`,
history included. -/
theorem UpdateVoter_replaces_witness :
    voterA2.VoterId ∈ storeA.Voters ∧
    (UpdateVoter storeA voterA2).1 = none ∧
    (GetVoter (UpdateVoter storeA voterA2).2 1).1 = (voterA2, none) ∧
    (GetVoteHistory (UpdateVoter storeA voterA2).2 1).1 = ([entry 7 7], none) :=
  ⟨by decide, (UpdateVoter_replaces storeA voterA2 (by decide)).1,
    (UpdateVoter_replaces storeA voterA2 (by decide)).2.1,
    (UpdateVoter_replaces storeA voterA2 (by decide)).2.2.1⟩

/-! ## DeleteVoter -/

/-- C5: when `id` is not a key of the store, `DeleteVoter id` returns no error
and the store after the call is the store before it. -/
theorem DeleteVoter_absent_noop (s : VoterList) (id : Nat) (h : id ∉ s.Voters) :
    DeleteVoter s id = (none, s) := by
  simp [DeleteVoter, erase_absent s.Voters id h]

/-- C5 on the scenario: deleting voter 5 from the store that holds voter 1. -/
theorem DeleteVoter_absent_noop_witness :
    5 ∉ storeA.Voters ∧ DeleteVoter storeA 5 = (none, storeA) :=
  ⟨by decide, DeleteVoter_absent_noop storeA 5 (by decide)⟩

/-- C6: for every store and every `id`, `DeleteVoter id` returns no error,
afterwards `id` is not a key of the store, and `GetVoter id` returns the zero
record with the error "voter does not exist"; on the store loaded by the test
suite, `GetVoter 2` succeeds, `DeleteVoter 2` succeeds and `GetVoter 2` then
fails. -/
theorem DeleteVoter_then_GetVoter (s : VoterList) (id : Nat) :
    (DeleteVoter s id).1 = none ∧
    id ∉ (DeleteVoter s id).2.Voters ∧
    (GetVoter (DeleteVoter s id).2 id).1 = (default, some "voter does not exist") ∧
    ((GetVoter storeLoaded 2).1 = (testVoter 2, none) ∧
      (DeleteVoter storeLoaded 2).1 = none ∧
      (GetVoter (DeleteVoter storeLoaded 2).2 2).1.2 = some "voter does not exist") := by
  have hnot : id ∉ (DeleteVoter s id).2.Voters := by
    show id ∉ AList.erase id s.Voters
    rw [AList.mem_erase]
    intro hk
    exact hk.1 rfl
  refine ⟨rfl, hnot, ?_, ?_⟩
  · rw [GetVoter_absent _ id hnot]
  · decide

/-! ## GetSingleVoteHistory -/

/-- C7: when `r` is the record stored under `id` and some entry of its history
has `PollId = p`, `GetSingleVoteHistory id p` returns, with no error, a
pointer to the entry at the smallest index of the history whose `PollId` is
`p`; in particular, when two entries `a` and `b` have `PollId = p`, `a` comes
before `b` and no entry before `a` has `PollId = p`, it returns `a`. -/
theorem GetSingleVoteHistory_first_match (s : VoterList) (id p : Nat) (r : Voter)
    (hr : s.Voters.lookup id = some r)
    (hp : ∃ e ∈ r.VoteHistory, e.PollId = p) :
    (∃ (i : Nat) (e : VoterHistory), r.VoteHistory[i]? = some e ∧ e.PollId = p ∧
      (∀ (j : Nat) (x : VoterHistory), j < i → r.VoteHistory[j]? = some x → x.PollId ≠ p) ∧
      (GetSingleVoteHistory s id p).1 = (some e, none)) ∧
    (∀ (pre mid post : List VoterHistory) (a b : VoterHistory),
      r.VoteHistory = pre ++ a :: (mid ++ b :: post) →
      (∀ x ∈ pre, x.PollId ≠ p) → a.PollId = p → b.PollId = p →
      (GetSingleVoteHistory s id p).1 = (some a, none)) := by
  constructor
  · obtain ⟨i, e, hie, hep, hmin, hscan⟩ := scan_first p r.VoteHistory hp
    refine ⟨i, e, hie, hep, hmin, ?_⟩
    simp [GetSingleVoteHistory, hr, hscan]
  · intro pre mid post a b hsplit hpre ha _
    have hscan : GetSingleVoteHistory.scan p r.VoteHistory = some a := by
      rw [hsplit]
      exact scan_append_cons p pre (mid ++ b :: post) a hpre ha
    simp [GetSingleVoteHistory, hr, hscan]

/-- C7 on a record with two entries for poll 4: the entry added first (vote 10,
at index 1) is returned, not the later one (vote 11, at index 3). -/
theorem GetSingleVoteHistory_first_match_witness :
    storeDup.Voters.lookup 3 = some voterDup ∧
    (∃ e ∈ voterDup.VoteHistory, e.PollId = 4) ∧
    (GetSingleVoteHistory storeDup 3 4).1 = (some (entry 4 10), none) :=
  ⟨by decide, ⟨entry 4 11, by decide, by decide⟩,
    (GetSingleVoteHistory_first_match storeDup 3 4 voterDup (by decide)
      ⟨entry 4 11, by decide, by decide⟩).2 [entry 1 1] [entry 2 2] [] (entry 4 10) (entry 4 11)
      (by decide) (by decide) (by decide) (by decide)⟩

/-- C8: `GetSingleVoteHistory id p` returns the error "that voter does not
exist" exactly when `id` is not a key of the store; it returns the error
"poll does not exist for the specified voter" exactly when `id` is a key and
no entry of the stored history has `PollId = p`; it returns no error exactly
when `id` is a key and some entry has `PollId = p`; the two errors are
different; and for voter 1 with entries for polls 1 and 2, `(1, 2)` returns
the second entry and `(1, 9)` fails with the second error. -/
theorem GetSingleVoteHistory_errors (s : VoterList) (id p : Nat) :
    ((GetSingleVoteHistory s id p).1.2 = some "that voter does not exist" ↔
      id ∉ s.Voters) ∧
    ((GetSingleVoteHistory s id p).1.2 = some "poll does not exist for the specified voter" ↔
      ∃ r, s.Voters.lookup id = some r ∧ ∀ e ∈ r.VoteHistory, e.PollId ≠ p) ∧
    ((GetSingleVoteHistory s id p).1.2 = none ↔
      ∃ r, s.Voters.lookup id = some r ∧ ∃ e ∈ r.VoteHistory, e.PollId = p) ∧
    ("that voter does not exist" : error) ≠ "poll does not exist for the specified voter" ∧
    (GetSingleVoteHistory storeA 1 2).1 = (some (entry 2 2), none) ∧
    (GetSingleVoteHistory storeA 1 9).1 =
      (none, some "poll does not exist for the specified voter") := by
  refine ⟨?_, ?_, ?_, by decide, by decide, by decide⟩
  all_goals
    cases hl : s.Voters.lookup id with
    | none =>
      have habs : id ∉ s.Voters := AList.lookup_eq_none.mp hl
      simp [GetSingleVoteHistory, hl, habs]
    | some r =>
      have hin : id ∈ s.Voters := mem_of_lookup_some hl
      cases hs : GetSingleVoteHistory.scan p r.VoteHistory with
      | none =>
        have hall := (scan_none_iff p r.VoteHistory).mp hs
        simp [GetSingleVoteHistory, hl, hs, hin]
        try exact hall
      | some e =>
        have hex : ∃ x ∈ r.VoteHistory, x.PollId = p := by
          by_contra hcon
          have hall : ∀ x ∈ r.VoteHistory, x.PollId ≠ p := by
            intro x hx hxp
            exact hcon ⟨x, hx, hxp⟩
          rw [(scan_none_iff p r.VoteHistory).mpr hall] at hs
          cases hs
        simp [GetSingleVoteHistory, hl, hs, hin]
        try exact hex

/-! ## AddPoll -/

/-- C9: when `r` is the record stored under `id`, `AddPoll id v` returns no
error for every `v` (no matter which `PollId` values the history already
has); afterwards the stored history is the old history followed by `v`: one
entry longer, every old entry at its old index, `v` last; and the stored
`VoterId`, `Name` and `Email` are those of `r`. -/
theorem AddPoll_appends (s : VoterList) (id : Nat) (r : Voter) (v : VoterHistory)
    (hr : s.Voters.lookup id = some r) :
    (AddPoll s id v).1 = none ∧
    (GetVoteHistory (AddPoll s id v).2 id).1 = (r.VoteHistory ++ [v], none) ∧
    (GetVoteHistory (AddPoll s id v).2 id).1.1.length = r.VoteHistory.length + 1 ∧
    (∀ i : Nat, i < r.VoteHistory.length →
      (GetVoteHistory (AddPoll s id v).2 id).1.1[i]? = r.VoteHistory[i]?) ∧
    (GetVoteHistory (AddPoll s id v).2 id).1.1[r.VoteHistory.length]? = some v ∧
    (GetVoteHistory (AddPoll s id v).2 id).1.1.getLast? = some v ∧
    (GetVoter (AddPoll s id v).2 id).1 =
      ({ VoterId := r.VoterId, Name := r.Name, Email := r.Email,
         VoteHistory := r.VoteHistory ++ [v] }, none) := by
  have hadd : AddPoll s id v =
      (none, { Voters := s.Voters.insert id ({ r with VoteHistory := r.VoteHistory ++ [v] }) }) := by
    simp [AddPoll, hr]
  have hhist : (GetVoteHistory (AddPoll s id v).2 id).1 = (r.VoteHistory ++ [v], none) := by
    rw [hadd]
    simp [GetVoteHistory, AList.lookup_insert]
  refine ⟨?_, hhist, ?_, ?_, ?_, ?_, ?_⟩
  · rw [hadd]
  · rw [hhist]
    simp
  · intro i hi
    rw [hhist]
    exact List.getElem?_append_left hi
  · rw [hhist]
    simp
  · rw [hhist]
    simp
  · rw [hadd]
    exact GetVoter_insert_same s.Voters id _

/-- C9 on the scenario: voter 1 already has an entry for poll 2; adding another
entry for poll 2 succeeds and puts it last. -/
theorem AddPoll_appends_witness :
    storeA.Voters.lookup 1 = some voterA ∧
    (AddPoll storeA 1 (entry 2 99)).1 = none ∧
    (GetVoteHistory (AddPoll storeA 1 (entry 2 99)).2 1).1 =
      ([entry 1 1, entry 2 2, entry 2 99], none) :=
  ⟨by decide, (AddPoll_appends storeA 1 voterA (entry 2 99) (by decide)).1,
    (AddPoll_appends storeA 1 voterA (entry 2 99) (by decide)).2.1⟩

/-- C10: when `id` is not a key of the store, `AddPoll id v` returns the error
"voter not found" and the store after the call is the store before it; in
particular `id` is still not a key. -/
theorem AddPoll_absent_fails (s : VoterList) (id : Nat) (v : VoterHistory)
    (h : id ∉ s.Voters) :
    AddPoll s id v = (some "voter not found", s) ∧
    id ∉ (AddPoll s id v).2.Voters := by
  have h0 : s.Voters.lookup id = none := AList.lookup_eq_none.mpr h
  have hadd : AddPoll s id v = (some "voter not found", s) := by
    simp [AddPoll, h0]
  rw [hadd]
  exact ⟨rfl, h⟩

/-- C10 on the scenario: adding a poll to voter 5 in the store that holds
voter 1 only. -/
theorem AddPoll_absent_fails_witness :
    5 ∉ storeA.Voters ∧
    AddPoll storeA 5 (entry 1 1) = (some "voter not found", storeA) :=
  ⟨by decide, (AddPoll_absent_fails storeA 5 (entry 1 1) (by decide)).1⟩

/-! ## The reads leave the store alone -/

theorem GetVoter_store (s : VoterList) (id : Nat) : (GetVoter s id).2 = s := by
  unfold GetVoter
  cases s.Voters.lookup id <;> rfl

theorem GetVoteHistory_store (s : VoterList) (id : Nat) : (GetVoteHistory s id).2 = s := by
  unfold GetVoteHistory
  cases s.Voters.lookup id <;> rfl

theorem GetSingleVoteHistory_store (s : VoterList) (id p : Nat) :
    (GetSingleVoteHistory s id p).2 = s := by
  unfold GetSingleVoteHistory
  cases s.Voters.lookup id with
  | none => rfl
  | some r =>
    show (match GetSingleVoteHistory.scan p r.VoteHistory with
      | some vote => ((some vote, none), s)
      | none => ((none, some "poll does not exist for the specified voter"), s)).2 = s
    cases GetSingleVoteHistory.scan p r.VoteHistory <;> rfl

theorem GetAllVoters_store (s : VoterList) : (GetAllVoters s).2 = s := rfl

/-! ## GetAllVoters -/

theorem foldl_append_mk (es : List (Sigma fun _ : Nat => Voter)) (l : List Voter) :
    es.foldl (fun voterList e => Slice.append voterList e.2) (Slice.mk l) =
      Slice.mk (l ++ es.map (fun e => e.2)) := by
  induction es generalizing l with
  | nil => simp
  | cons e t ih =>
    rw [List.foldl_cons]
    show t.foldl (fun voterList e => Slice.append voterList e.2) (Slice.mk (l ++ [e.2])) = _
    rw [ih]
    simp

theorem foldl_append_nil (es : List (Sigma fun _ : Nat => Voter)) :
    es.foldl (fun voterList e => Slice.append voterList e.2) Slice.nil =
      if es = [] then Slice.nil else Slice.mk (es.map (fun e => e.2)) := by
  cases es with
  | nil => simp
  | cons e t =>
    rw [List.foldl_cons]
    show t.foldl (fun voterList e => Slice.append voterList e.2) (Slice.mk [e.2]) = _
    rw [foldl_append_mk]
    simp

theorem GetAllVoters_toList (s : VoterList) :
    (GetAllVoters s).1.1.toList = s.Voters.entries.map (fun e => e.2) := by
  unfold GetAllVoters
  rw [foldl_append_nil]
  by_cases h : s.Voters.entries = []
  · simp [h, Slice.toList]
  · simp [h, Slice.toList]

theorem GetAllVoters_of_no_keys (s : VoterList) (h : s.Voters.keys = []) :
    (GetAllVoters s).1 = (Slice.nil, none) := by
  have he : s.Voters.entries = [] := by
    have h1 : s.Voters.entries.map Sigma.fst = [] := h
    exact List.map_eq_nil_iff.mp h1
  unfold GetAllVoters
  rw [foldl_append_nil]
  simp [he]

theorem values_eq_map_keys (s : VoterList) :
    s.Voters.entries.map (fun e => e.2) = s.Voters.keys.map (fun k => (GetVoter s k).1.1) := by
  show _ = (s.Voters.entries.map Sigma.fst).map (fun k => (GetVoter s k).1.1)
  rw [List.map_map]
  apply List.map_congr_left
  intro e he
  have hl : s.Voters.lookup e.1 = some e.2 := by
    apply AList.mem_lookup_iff.mpr
    exact he
  simp [GetVoter, hl]

/-- C11, as it fails: on the store `NewVoterList` creates, `GetAllVoters`
returns the `nil` slice, not an allocated (empty) one. -/
theorem GetAllVoters_fresh_store_nil :
    (GetAllVoters NewVoterList.1).1.1 = Slice.nil ∧
    ¬ ∃ l : List Voter, (GetAllVoters NewVoterList.1).1.1 = Slice.mk l := by
  refine ⟨by decide, ?_⟩
  rintro ⟨l, hl⟩
  have hnil : (GetAllVoters NewVoterList.1).1.1 = Slice.nil := by decide
  rw [hnil] at hl
  cases hl

/-- C11, amended: on a store without keys (the one `NewVoterList` creates, the
one `DeleteAll` leaves, the one `DeleteVoter id` leaves when no other key
was stored) `GetAllVoters` returns no error and the `nil` slice, which has
length 0 and no elements; the slice is allocated exactly when the store has
a key. -/
theorem GetAllVoters_empty_store (s : VoterList) (id : Nat) :
    (GetAllVoters NewVoterList.1).1 = (Slice.nil, none) ∧
    (GetAllVoters (DeleteAll s).2).1 = (Slice.nil, none) ∧
    ((∀ k ∈ s.Voters.keys, k = id) →
      (GetAllVoters (DeleteVoter s id).2).1 = (Slice.nil, none)) ∧
    (s.Voters.keys = [] → (GetAllVoters s).1 = (Slice.nil, none)) ∧
    ((GetAllVoters s).1.1 = Slice.nil ↔ s.Voters.keys = []) ∧
    (Slice.nil : Slice Voter).len = 0 ∧ (Slice.nil : Slice Voter).toList = [] := by
  refine ⟨by decide, ?_, ?_, GetAllVoters_of_no_keys s, ?_, rfl, rfl⟩
  · exact GetAllVoters_of_no_keys _ rfl
  · intro hall
    apply GetAllVoters_of_no_keys
    show (AList.erase id s.Voters).keys = []
    rw [AList.keys_erase]
    apply List.eq_nil_iff_forall_not_mem.mpr
    intro k hk
    have hk1 : k ∈ s.Voters.keys := List.mem_of_mem_erase hk
    have hkid : k = id := hall k hk1
    rw [hkid] at hk
    exact (List.Nodup.not_mem_erase s.Voters.keys_nodup) hk
  · constructor
    · intro hnil
      have ht := GetAllVoters_toList s
      rw [hnil] at ht
      have he : s.Voters.entries = [] := by
        simpa [Slice.toList] using ht.symm
      show s.Voters.entries.map Sigma.fst = []
      rw [he]
      rfl
    · intro hk
      rw [GetAllVoters_of_no_keys s hk]

/-- C11, amended, on the scenario: after voter 1, the only voter stored, is
deleted, `GetAllVoters` returns the `nil` slice; while voter 1 is stored the
slice is allocated. -/
theorem GetAllVoters_empty_store_witness :
    (∀ k ∈ storeA.Voters.keys, k = 1) ∧
    (GetAllVoters (DeleteVoter storeA 1).2).1 = (Slice.nil, none) ∧
    (GetAllVoters storeA).1.1 ≠ Slice.nil :=
  ⟨by decide, (GetAllVoters_empty_store storeA 1).2.2.1 (by decide),
    fun h => absurd ((GetAllVoters_empty_store storeA 1).2.2.2.2.1.mp h) (by decide)⟩

/-- C12: `GetAllVoters` returns no error and, up to order, exactly the records
of the store: its elements are a permutation of the records stored under
the keys, each key (the keys are pairwise distinct) giving one element; a
record is an element exactly when it is stored under some key; the length
is the number of keys; after voters 0, 1 and 2 are added to the empty store
the length is 3. -/
theorem GetAllVoters_all_records (s : VoterList) :
    (GetAllVoters s).1.2 = none ∧
    List.Perm (GetAllVoters s).1.1.toList
      (s.Voters.keys.map (fun k => (GetVoter s k).1.1)) ∧
    s.Voters.keys.Nodup ∧
    (∀ r : Voter, r ∈ (GetAllVoters s).1.1.toList ↔ ∃ k, s.Voters.lookup k = some r) ∧
    (GetAllVoters s).1.1.len = s.Voters.keys.length ∧
    (GetAllVoters storeLoaded).1.1.len = 3 := by
  refine ⟨rfl, ?_, s.Voters.keys_nodup, ?_, ?_, by decide⟩
  · rw [GetAllVoters_toList, values_eq_map_keys]
  · intro r
    rw [GetAllVoters_toList]
    constructor
    · intro hr
      obtain ⟨e, he, her⟩ := List.mem_map.mp hr
      refine ⟨e.1, ?_⟩
      rw [← her]
      exact AList.mem_lookup_iff.mpr he
    · rintro ⟨k, hk⟩
      have he : (Sigma.mk k r : Sigma fun _ : Nat => Voter) ∈ s.Voters.entries :=
        AList.mem_lookup_iff.mp hk
      exact List.mem_map.mpr ⟨⟨k, r⟩, he, rfl⟩
  · unfold Slice.len
    rw [GetAllVoters_toList]
    simp [AList.keys, List.keys]

/-! ## DeleteAll -/

/-- C13: `DeleteAll` returns no error and leaves a store without keys: a
following `GetAllVoters` returns no error and a slice with no elements, and
`GetVoter id` returns the error "voter does not exist" for every `id`. -/
theorem DeleteAll_clears (s : VoterList) :
    (DeleteAll s).1 = none ∧
    (DeleteAll s).2.Voters.keys = [] ∧
    (GetAllVoters (DeleteAll s).2).1.2 = none ∧
    (GetAllVoters (DeleteAll s).2).1.1.toList = [] ∧
    (GetAllVoters (DeleteAll s).2).1.1.len = 0 ∧
    (∀ id : Nat, (GetVoter (DeleteAll s).2 id).1 = (default, some "voter does not exist")) := by
  refine ⟨rfl, rfl, rfl, rfl, rfl, ?_⟩
  intro id
  rfl

/-! ## The keys along a sequence of calls -/

theorem mem_AddVoter (s : VoterList) (r : Voter) (k : Nat) :
    k ∈ (AddVoter s r).2.Voters ↔ k = r.VoterId ∨ k ∈ s.Voters := by
  by_cases h : r.VoterId ∈ s.Voters
  · rw [AddVoter_present s r h]
    constructor
    · intro hk
      exact Or.inr hk
    · rintro (hk | hk)
      · rw [hk]
        exact h
      · exact hk
  · rw [AddVoter_absent s r h]
    exact AList.mem_insert s.Voters

theorem mem_UpdateVoter (s : VoterList) (r : Voter) (k : Nat) :
    k ∈ (UpdateVoter s r).2.Voters ↔ k ∈ s.Voters := by
  by_cases h : r.VoterId ∈ s.Voters
  · rw [UpdateVoter_present s r h]
    show k ∈ AList.insert r.VoterId r s.Voters ↔ k ∈ s.Voters
    rw [AList.mem_insert]
    constructor
    · rintro (hk | hk)
      · rw [hk]
        exact h
      · exact hk
    · intro hk
      exact Or.inr hk
  · rw [UpdateVoter_absent s r h]

theorem mem_DeleteVoter (s : VoterList) (id k : Nat) :
    k ∈ (DeleteVoter s id).2.Voters ↔ k ≠ id ∧ k ∈ s.Voters :=
  AList.mem_erase

theorem not_mem_DeleteAll (s : VoterList) (k : Nat) : k ∉ (DeleteAll s).2.Voters :=
  AList.not_mem_empty k

theorem mem_AddPoll (s : VoterList) (id k : Nat) (v : VoterHistory) :
    k ∈ (AddPoll s id v).2.Voters ↔ k ∈ s.Voters := by
  cases hl : s.Voters.lookup id with
  | none => simp [AddPoll, hl]
  | some r =>
    have hin : id ∈ s.Voters := mem_of_lookup_some hl
    have hadd : (AddPoll s id v).2 =
        { Voters := s.Voters.insert id ({ r with VoteHistory := r.VoteHistory ++ [v] }) } := by
      simp [AddPoll, hl]
    rw [hadd]
    show k ∈ AList.insert id _ s.Voters ↔ k ∈ s.Voters
    rw [AList.mem_insert]
    constructor
    · rintro (hk | hk)
      · rw [hk]
        exact hin
      · exact hk
    · intro hk
      exact Or.inr hk

theorem run_snoc (s : VoterList) (ops : List Op) (op : Op) :
    run s (ops ++ [op]) = (op.apply (run s ops)).2 := by
  simp [run, List.foldl_append]

theorem apply_keeps_key (s : VoterList) (op : Op) (k : Nat) (hk : k ∈ s.Voters)
    (h1 : op ≠ Op.deleteVoter k) (h2 : op ≠ Op.deleteAll) : k ∈ (op.apply s).2.Voters := by
  cases op with
  | addVoter r => exact (mem_AddVoter s r k).mpr (Or.inr hk)
  | updateVoter r => exact (mem_UpdateVoter s r k).mpr hk
  | deleteVoter id =>
    refine (mem_DeleteVoter s id k).mpr ⟨?_, hk⟩
    intro hid
    exact h1 (by rw [hid])
  | deleteAll => exact absurd rfl h2
  | addPoll id v => exact (mem_AddPoll s id k v).mpr hk
  | getVoter id =>
    show k ∈ (GetVoter s id).2.Voters
    rw [GetVoter_store]
    exact hk
  | getAllVoters => exact hk
  | getVoteHistory id =>
    show k ∈ (GetVoteHistory s id).2.Voters
    rw [GetVoteHistory_store]
    exact hk
  | getSingleVoteHistory id p =>
    show k ∈ (GetSingleVoteHistory s id p).2.Voters
    rw [GetSingleVoteHistory_store]
    exact hk

theorem apply_key_before_or_added (s : VoterList) (op : Op) (k : Nat)
    (hk : k ∈ (op.apply s).2.Voters) :
    (k ∈ s.Voters ∧ op ≠ Op.deleteVoter k ∧ op ≠ Op.deleteAll) ∨
    (∃ r, op = Op.addVoter r ∧ r.VoterId = k ∧ (AddVoter s r).1 = none) := by
  cases op with
  | addVoter r =>
    by_cases hin : k ∈ s.Voters
    · exact Or.inl ⟨hin, by simp, by simp⟩
    · right
      have hkr : k = r.VoterId := by
        rcases (mem_AddVoter s r k).mp hk with h | h
        · exact h
        · exact absurd h hin
      refine ⟨r, rfl, hkr.symm, ?_⟩
      rw [hkr] at hin
      rw [AddVoter_absent s r hin]
  | updateVoter r => exact Or.inl ⟨(mem_UpdateVoter s r k).mp hk, by simp, by simp⟩
  | deleteVoter id =>
    have h := (mem_DeleteVoter s id k).mp hk
    refine Or.inl ⟨h.2, ?_, by simp⟩
    intro heq
    injection heq with hid
    exact h.1 hid.symm
  | deleteAll => exact absurd hk (not_mem_DeleteAll s k)
  | addPoll id v => exact Or.inl ⟨(mem_AddPoll s id k v).mp hk, by simp, by simp⟩
  | getVoter id =>
    have h : k ∈ (GetVoter s id).2.Voters := hk
    rw [GetVoter_store] at h
    exact Or.inl ⟨h, by simp, by simp⟩
  | getAllVoters => exact Or.inl ⟨hk, by simp, by simp⟩
  | getVoteHistory id =>
    have h : k ∈ (GetVoteHistory s id).2.Voters := hk
    rw [GetVoteHistory_store] at h
    exact Or.inl ⟨h, by simp, by simp⟩
  | getSingleVoteHistory id p =>
    have h : k ∈ (GetSingleVoteHistory s id p).2.Voters := hk
    rw [GetSingleVoteHistory_store] at h
    exact Or.inl ⟨h, by simp, by simp⟩

theorem snoc_eq_append_cons {ops pre post : List Op} {op x : Op}
    (h : ops ++ [op] = pre ++ x :: post) :
    (post = [] ∧ ops = pre ∧ op = x) ∨
    (∃ post0, post = post0 ++ [op] ∧ ops = pre ++ x :: post0) := by
  rcases List.eq_nil_or_concat post with hp | ⟨post0, b, hp⟩
  · left
    subst hp
    have h2 : ops ++ [op] = pre ++ [x] := h
    have h3 := List.append_inj' h2 rfl
    exact ⟨rfl, h3.1, by simpa using h3.2⟩
  · right
    subst hp
    have h2 : ops ++ [op] = (pre ++ x :: post0) ++ [b] := by
      rw [h]
      simp
    have h3 := List.append_inj' h2 rfl
    have hb : op = b := by simpa using h3.2
    exact ⟨post0, by rw [hb, List.concat_eq_append], h3.1⟩

theorem mem_run_iff (ops : List Op) (k : Nat) :
    k ∈ (run NewVoterList.1 ops).Voters ↔
      ∃ (pre : List Op) (r : Voter) (post : List Op),
        ops = pre ++ Op.addVoter r :: post ∧ r.VoterId = k ∧
        (AddVoter (run NewVoterList.1 pre) r).1 = none ∧
        ∀ op ∈ post, op ≠ Op.deleteVoter k ∧ op ≠ Op.deleteAll := by
  induction ops using List.reverseRecOn with
  | nil =>
    constructor
    · intro hk
      exact absurd hk (AList.not_mem_empty k)
    · rintro ⟨pre, r, post, hsplit, _⟩
      simp at hsplit
  | append_singleton ops op ih =>
    rw [run_snoc]
    constructor
    · intro hk
      rcases apply_key_before_or_added _ op k hk with ⟨hin, hd1, hd2⟩ | ⟨r, hop, hid, hsucc⟩
      · obtain ⟨pre, r, post, hsplit, hid, hsucc, hno⟩ := ih.mp hin
        refine ⟨pre, r, post ++ [op], by simp [hsplit], hid, hsucc, ?_⟩
        intro o ho
        rcases List.mem_append.mp ho with h1 | h1
        · exact hno o h1
        · have ho2 : o = op := by simpa using h1
          rw [ho2]
          exact ⟨hd1, hd2⟩
      · exact ⟨ops, r, [], by rw [hop], hid, hsucc, by simp⟩
    · rintro ⟨pre, r, post, hsplit, hid, hsucc, hno⟩
      rcases snoc_eq_append_cons hsplit with ⟨_, hpre, hop⟩ | ⟨post0, hpost, hops⟩
      · rw [hpre, hop]
        show k ∈ (AddVoter (run NewVoterList.1 pre) r).2.Voters
        exact (mem_AddVoter _ r k).mpr (Or.inl hid.symm)
      · have hno0 : ∀ o ∈ post0, o ≠ Op.deleteVoter k ∧ o ≠ Op.deleteAll := by
          intro o ho
          apply hno
          rw [hpost]
          exact List.mem_append_left _ ho
        have hin : k ∈ (run NewVoterList.1 ops).Voters :=
          ih.mpr ⟨pre, r, post0, hops, hid, hsucc, hno0⟩
        have hop : op ≠ Op.deleteVoter k ∧ op ≠ Op.deleteAll := by
          apply hno
          rw [hpost]
          simp
        exact apply_keeps_key _ op k hin hop.1 hop.2

/-- C14: for every sequence `ops` of Store calls made on the store that
`NewVoterList` creates and every `k`: `k` is a key of the final store exactly
when the sequence has an `AddVoter` of a record with `VoterId = k` that
returned no error and is followed by no `DeleteVoter k` and no `DeleteAll`;
and such an `AddVoter` is the last one for `k` that returns no error: every
`AddVoter` for `k` after it returns "voter already exists". -/
theorem key_iff_added_and_not_deleted (ops : List Op) (k : Nat) :
    (k ∈ (run NewVoterList.1 ops).Voters ↔
      ∃ (pre : List Op) (r : Voter) (post : List Op),
        ops = pre ++ Op.addVoter r :: post ∧ r.VoterId = k ∧
        (AddVoter (run NewVoterList.1 pre) r).1 = none ∧
        ∀ op ∈ post, op ≠ Op.deleteVoter k ∧ op ≠ Op.deleteAll) ∧
    (∀ (pre : List Op) (r : Voter) (post : List Op),
      ops = pre ++ Op.addVoter r :: post → r.VoterId = k →
      (AddVoter (run NewVoterList.1 pre) r).1 = none →
      (∀ op ∈ post, op ≠ Op.deleteVoter k ∧ op ≠ Op.deleteAll) →
      ∀ (mid : List Op) (r2 : Voter) (rest : List Op),
        post = mid ++ Op.addVoter r2 :: rest → r2.VoterId = k →
        (AddVoter (run NewVoterList.1 (pre ++ Op.addVoter r :: mid)) r2).1 =
          some "voter already exists") := by
  refine ⟨mem_run_iff ops k, ?_⟩
  intro pre r post _ hid hsucc hno mid r2 rest hpost hid2
  have hmid : ∀ o ∈ mid, o ≠ Op.deleteVoter k ∧ o ≠ Op.deleteAll := by
    intro o ho
    apply hno
    rw [hpost]
    exact List.mem_append_left _ ho
  have hin : k ∈ (run NewVoterList.1 (pre ++ Op.addVoter r :: mid)).Voters :=
    (mem_run_iff _ k).mpr ⟨pre, r, mid, rfl, hid, hsucc, hmid⟩
  rw [← hid2] at hin
  rw [AddVoter_present _ r2 hin]

/-- C14 on a sequence: voter 1 is added, read, deleted and added again, voter 3
is added and deleted; at the end 1 is a key (its second add is followed by
no delete) and 3 is not. -/
theorem key_iff_added_and_not_deleted_witness :
    1 ∈ (run NewVoterList.1
      [Op.addVoter voterA, Op.getVoter 1, Op.deleteVoter 1, Op.addVoter voterDup,
       Op.addVoter voterA2, Op.deleteVoter 3, Op.getAllVoters]).Voters ∧
    3 ∉ (run NewVoterList.1
      [Op.addVoter voterA, Op.getVoter 1, Op.deleteVoter 1, Op.addVoter voterDup,
       Op.addVoter voterA2, Op.deleteVoter 3, Op.getAllVoters]).Voters :=
  ⟨(key_iff_added_and_not_deleted _ 1).1.mpr
      ⟨[Op.addVoter voterA, Op.getVoter 1, Op.deleteVoter 1, Op.addVoter voterDup], voterA2,
        [Op.deleteVoter 3, Op.getAllVoters], rfl, rfl, by decide, by decide⟩,
    by decide⟩

/-! ## GetVoteHistory and GetVoter -/

theorem lookup_addPolls (vs : List VoterHistory) (s : VoterList) (id : Nat) (r : Voter)
    (h : s.Voters.lookup id = some r) :
    (addPolls s id vs).Voters.lookup id =
      some { r with VoteHistory := r.VoteHistory ++ vs } := by
  induction vs generalizing s r with
  | nil => simp [addPolls, h]
  | cons v t ih =>
    have hstep : (AddPoll s id v).2.Voters.lookup id =
        some { r with VoteHistory := r.VoteHistory ++ [v] } := by
      simp [AddPoll, h, AList.lookup_insert]
    have hfold : addPolls s id (v :: t) = addPolls (AddPoll s id v).2 id t := rfl
    rw [hfold, ih (AddPoll s id v).2 _ hstep]
    simp

/-- C15: when `r` is the record stored under `id`, `GetVoteHistory id` returns
the history of `r`, as stored, and no error; when `id` is not a key it
returns the error "voter history does not exist"; and after a successful
`AddVoter r` followed by `AddPoll r.VoterId v` for each `v` of `vs` in turn,
it returns the history of `r` followed by `vs`. -/
theorem GetVoteHistory_returns_history (s : VoterList) (id : Nat) :
    (∀ r : Voter, s.Voters.lookup id = some r →
      (GetVoteHistory s id).1 = (r.VoteHistory, none)) ∧
    (id ∉ s.Voters → (GetVoteHistory s id).1 = ([], some "voter history does not exist")) ∧
    ((GetVoteHistory s id).1.2 = none ↔ id ∈ s.Voters) ∧
    (∀ (r : Voter) (vs : List VoterHistory), (AddVoter s r).1 = none →
      (GetVoteHistory (addPolls (AddVoter s r).2 r.VoterId vs) r.VoterId).1 =
        (r.VoteHistory ++ vs, none)) := by
  refine ⟨?_, ?_, ?_, ?_⟩
  · intro r hr
    simp [GetVoteHistory, hr]
  · intro habs
    have h0 : s.Voters.lookup id = none := AList.lookup_eq_none.mpr habs
    simp [GetVoteHistory, h0]
  · cases hl : s.Voters.lookup id with
    | none =>
      have habs : id ∉ s.Voters := AList.lookup_eq_none.mp hl
      simp [GetVoteHistory, hl, habs]
    | some r =>
      have hin : id ∈ s.Voters := mem_of_lookup_some hl
      simp [GetVoteHistory, hl, hin]
  · intro r vs hadd
    have habs : r.VoterId ∉ s.Voters := by
      intro hin
      simp [AddVoter_present s r hin] at hadd
    have hl : (AddVoter s r).2.Voters.lookup r.VoterId = some r := by
      rw [AddVoter_absent s r habs]
      exact AList.lookup_insert s.Voters
    have hl2 := lookup_addPolls vs (AddVoter s r).2 r.VoterId r hl
    simp [GetVoteHistory, hl2]

/-- C15 on the scenario: voter 1 is added with entries for polls 1 and 2, then
entries for polls 50 and 2 are added; the history comes back in that order. -/
theorem GetVoteHistory_returns_history_witness :
    (AddVoter emptyStore voterA).1 = none ∧
    (GetVoteHistory (addPolls (AddVoter emptyStore voterA).2 1 [entry 50 50, entry 2 9]) 1).1 =
      ([entry 1 1, entry 2 2, entry 50 50, entry 2 9], none) ∧
    (GetVoteHistory storeA 1).1 = ([entry 1 1, entry 2 2], none) :=
  ⟨by decide,
    (GetVoteHistory_returns_history emptyStore 1).2.2.2 voterA [entry 50 50, entry 2 9]
      (by decide),
    (GetVoteHistory_returns_history storeA 1).1 voterA (by decide)⟩

/-- C16: `GetVoter id` returns no error exactly when `id` is a key of the
store, and then it returns the record stored under `id`; when `id` is not a
key it returns the zero record and the error "voter does not exist"; so
does `GetVoter 999` on the store `NewVoterList` creates. -/
theorem GetVoter_succeeds_iff_key (s : VoterList) (id : Nat) :
    ((GetVoter s id).1.2 = none ↔ id ∈ s.Voters) ∧
    (∀ r : Voter, s.Voters.lookup id = some r → (GetVoter s id).1 = (r, none)) ∧
    (id ∈ s.Voters → s.Voters.lookup id = some (GetVoter s id).1.1) ∧
    (id ∉ s.Voters → (GetVoter s id).1 = (default, some "voter does not exist")) ∧
    (GetVoter NewVoterList.1 999).1 = (default, some "voter does not exist") := by
  refine ⟨?_, ?_, ?_, ?_, by decide⟩
  · by_cases h : id ∈ s.Voters
    · obtain ⟨r, hr⟩ := lookup_some_of_mem h
      simp [GetVoter_of_lookup s id r hr, h]
    · simp [GetVoter_absent s id h, h]
  · intro r hr
    rw [GetVoter_of_lookup s id r hr]
  · intro h
    obtain ⟨r, hr⟩ := lookup_some_of_mem h
    rw [GetVoter_of_lookup s id r hr]
    exact hr
  · intro h
    rw [GetVoter_absent s id h]

/-- C16 on the scenario: voter 1 is read from the store that holds it, voter 5
is not found there. -/
theorem GetVoter_succeeds_iff_key_witness :
    (GetVoter storeA 1).1 = (voterA, none) ∧
    (GetVoter storeA 5).1 = (default, some "voter does not exist") :=
  ⟨(GetVoter_succeeds_iff_key storeA 1).2.1 voterA (by decide),
    (GetVoter_succeeds_iff_key storeA 5).2.2.2.1 (by decide)⟩

end db

/-! ## Facts about `strconv.Atoi` and `uint` -/

namespace strconv

theorem digits_eq (cs : List Char) (n : Nat) :
    Atoi.digits n cs =
      if cs.all Char.isDigit then some (cs.foldl (fun n c => n * 10 + (c.toNat - 48)) n)
      else none := by
  induction cs generalizing n with
  | nil => simp [Atoi.digits]
  | cons c t ih =>
    by_cases hc : c.isDigit
    · simp [Atoi.digits, hc, ih]
    · simp [Atoi.digits, hc]

theorem Atoi_eq (s : String) :
    Atoi s =
      if isDecimalInt s then
        (if s.data.head? = some '-' then
          (if decimalValue (unsignedPart s) ≤ 2 ^ 63 then
            some (-(decimalValue (unsignedPart s) : Int)) else none)
        else
          (if decimalValue (unsignedPart s) < 2 ^ 63 then
            some (decimalValue (unsignedPart s) : Int) else none))
      else none := by
  have h0 : Atoi s =
      (if unsignedPart s = [] then none
       else
        match Atoi.digits 0 (unsignedPart s) with
        | none => none
        | some n =>
          if s.data.head? = some '-' then
            (if n ≤ 2 ^ 63 then some (-(n : Int)) else none)
          else
            (if n < 2 ^ 63 then some (n : Int) else none)) := rfl
  rw [h0, digits_eq]
  unfold isDecimalInt decimalValue
  generalize unsignedPart s = body
  by_cases hb : body = []
  · simp [hb]
  · by_cases hd : body.all Char.isDigit = true
    · rw [if_neg hb, if_pos hd]
      have hi : (!body.isEmpty && body.all Char.isDigit) = true := by
        simp [hb, hd, List.isEmpty_iff]
      rw [if_pos hi]
    · rw [if_neg hb, if_neg hd]
      have hi : ¬ (!body.isEmpty && body.all Char.isDigit) = true := by
        intro h
        simp only [Bool.and_eq_true] at h
        exact hd h.2
      rw [if_neg hi]

theorem Atoi_isDecimalInt {s : String} {z : Int} (h : Atoi s = some z) :
    isDecimalInt s = true := by
  rw [Atoi_eq] at h
  by_contra hn
  rw [if_neg hn] at h
  cases h

theorem Atoi_range {s : String} {z : Int} (h : Atoi s = some z) :
    -(2 ^ 63 : Int) ≤ z ∧ z < 2 ^ 63 := by
  rw [Atoi_eq] at h
  split_ifs at h with h1 h2 h3 h4
  · injection h with h
    omega
  · injection h with h
    omega

theorem Atoi_of_isDecimalNat {s : String} (h : isDecimalNat s = true)
    (hv : decimalValue s.data < 2 ^ 63) :
    Atoi s = some (decimalValue s.data : Int) := by
  unfold isDecimalNat at h
  simp only [Bool.and_eq_true] at h
  obtain ⟨hne, hall⟩ := h
  have hhead : ¬ (s.data.head? = some '-' ∨ s.data.head? = some '+') := by
    cases hd : s.data with
    | nil => simp [hd] at hne
    | cons c t =>
      have hc : c.isDigit = true := by
        rw [hd] at hall
        simp at hall
        exact hall.1
      simp only [List.head?_cons, Option.some.injEq]
      rintro (h1 | h1)
      · rw [h1] at hc
        exact absurd hc (by decide)
      · rw [h1] at hc
        exact absurd hc (by decide)
  have hu : unsignedPart s = s.data := by
    unfold unsignedPart
    rw [if_neg hhead]
  have hneg : ¬ s.data.head? = some '-' := fun h1 => hhead (Or.inl h1)
  have hint : isDecimalInt s = true := by
    unfold isDecimalInt
    rw [hu]
    simp only [Bool.and_eq_true]
    exact ⟨hne, hall⟩
  rw [Atoi_eq, if_pos hint, if_neg hneg, hu, if_pos hv]

end strconv

theorem uint_natCast (n : Nat) (h : n < 2 ^ 64) : uint (n : Int) = n := by
  unfold uint
  have h1 : ((n : Int) % 2 ^ 64) = (n : Int) := by
    apply Int.emod_eq_of_lt
    · exact Int.ofNat_nonneg n
    · exact_mod_cast h
  rw [h1]
  exact Int.toNat_natCast n

theorem uint_of_Atoi {s : String} {n : Nat} (h : strconv.Atoi s = some (n : Int)) :
    uint (n : Int) = n := by
  have hr := (strconv.Atoi_range h).2
  apply uint_natCast
  have h1 : (n : Int) < 2 ^ 64 := by omega
  exact_mod_cast h1

/-! ## The handlers -/

namespace api

theorem GetVoter_of_Atoi (v : VoterAPI) (seg : String) (z : Int)
    (h : strconv.Atoi seg = some z) :
    VoterAPI.GetVoter v seg =
      (match (db.GetVoter v.db (uint z)).1.2 with
      | some _ =>
        { status := 404, body := Body.failure "Not Found",
          calls := [db.Op.getVoter (uint z)], after := { db := (db.GetVoter v.db (uint z)).2 } }
      | none =>
        { status := 200, body := Body.voter (db.GetVoter v.db (uint z)).1.1,
          calls := [db.Op.getVoter (uint z)],
          after := { db := (db.GetVoter v.db (uint z)).2 } }) := by
  unfold VoterAPI.GetVoter
  rw [h]

theorem GetPollHistoryFromVoter_of_Atoi (v : VoterAPI) (seg : String) (z : Int)
    (h : strconv.Atoi seg = some z) :
    VoterAPI.GetPollHistoryFromVoter v seg =
      (match (db.GetVoteHistory v.db (uint z)).1.2 with
      | some _ =>
        { status := 404, body := Body.failure "Not Found",
          calls := [db.Op.getVoteHistory (uint z)],
          after := { db := (db.GetVoteHistory v.db (uint z)).2 } }
      | none =>
        { status := 200, body := Body.history (db.GetVoteHistory v.db (uint z)).1.1,
          calls := [db.Op.getVoteHistory (uint z)],
          after := { db := (db.GetVoteHistory v.db (uint z)).2 } }) := by
  unfold VoterAPI.GetPollHistoryFromVoter
  rw [h]

theorem GetSinglePollFromVoter_of_Atoi (v : VoterAPI) (seg seg2 : String) (z z2 : Int)
    (h : strconv.Atoi seg = some z) (h2 : strconv.Atoi seg2 = some z2) :
    VoterAPI.GetSinglePollFromVoter v seg seg2 =
      (match (db.GetSingleVoteHistory v.db (uint z) (uint z2)).1.2 with
      | some _ =>
        { status := 404, body := Body.failure "Not Found",
          calls := [db.Op.getSingleVoteHistory (uint z) (uint z2)],
          after := { db := (db.GetSingleVoteHistory v.db (uint z) (uint z2)).2 } }
      | none =>
        { status := 200,
          body := Body.poll (db.GetSingleVoteHistory v.db (uint z) (uint z2)).1.1,
          calls := [db.Op.getSingleVoteHistory (uint z) (uint z2)],
          after := { db := (db.GetSingleVoteHistory v.db (uint z) (uint z2)).2 } }) := by
  unfold VoterAPI.GetSinglePollFromVoter
  rw [h, h2]

theorem AddSinglePollToVoter_of_Atoi (v : VoterAPI) (seg : String) (z : Int)
    (poll : db.VoterHistory) (h : strconv.Atoi seg = some z) :
    VoterAPI.AddSinglePollToVoter v seg (some poll) =
      (match (db.AddPoll v.db (uint z) poll).1 with
      | some _ =>
        { status := 404, body := Body.failure "Failed to add poll to voter",
          calls := [db.Op.addPoll (uint z) poll],
          after := { db := (db.AddPoll v.db (uint z) poll).2 } }
      | none =>
        { status := 200, body := Body.id z,
          calls := [db.Op.addPoll (uint z) poll],
          after := { db := (db.AddPoll v.db (uint z) poll).2 } }) := by
  unfold VoterAPI.AddSinglePollToVoter
  rw [h]

theorem DeleteVoter_of_Atoi (v : VoterAPI) (seg : String) (z : Int)
    (h : strconv.Atoi seg = some z) :
    VoterAPI.DeleteVoter v seg =
      { status := 200, body := Body.text "Delete OK",
        calls := [db.Op.deleteVoter (uint z)],
        after := { db := (db.DeleteVoter v.db (uint z)).2 } } := by
  unfold VoterAPI.DeleteVoter
  rw [h]
  rfl

theorem calls_nonempty_GetSinglePoll (v : VoterAPI) (seg seg2 : String)
    (h : (VoterAPI.GetSinglePollFromVoter v seg seg2).calls ≠ []) :
    (∃ z, strconv.Atoi seg = some z) ∧ (∃ z2, strconv.Atoi seg2 = some z2) := by
  cases h1 : strconv.Atoi seg with
  | none =>
    exfalso
    apply h
    unfold VoterAPI.GetSinglePollFromVoter
    rw [h1]
  | some z =>
    cases h2 : strconv.Atoi seg2 with
    | none =>
      exfalso
      apply h
      unfold VoterAPI.GetSinglePollFromVoter
      rw [h1, h2]
    | some z2 => exact ⟨⟨z, rfl⟩, ⟨z2, rfl⟩⟩

theorem GetVoter_calls (v : VoterAPI) (seg : String) (z : Int)
    (h : strconv.Atoi seg = some z) :
    (VoterAPI.GetVoter v seg).calls = [db.Op.getVoter (uint z)] := by
  rw [GetVoter_of_Atoi v seg z h]
  split <;> rfl

theorem GetPollHistoryFromVoter_calls (v : VoterAPI) (seg : String) (z : Int)
    (h : strconv.Atoi seg = some z) :
    (VoterAPI.GetPollHistoryFromVoter v seg).calls = [db.Op.getVoteHistory (uint z)] := by
  rw [GetPollHistoryFromVoter_of_Atoi v seg z h]
  split <;> rfl

theorem GetSinglePollFromVoter_calls (v : VoterAPI) (seg seg2 : String) (z z2 : Int)
    (h : strconv.Atoi seg = some z) (h2 : strconv.Atoi seg2 = some z2) :
    (VoterAPI.GetSinglePollFromVoter v seg seg2).calls =
      [db.Op.getSingleVoteHistory (uint z) (uint z2)] := by
  rw [GetSinglePollFromVoter_of_Atoi v seg seg2 z z2 h h2]
  split <;> rfl

theorem AddSinglePollToVoter_calls (v : VoterAPI) (seg : String) (z : Int)
    (poll : db.VoterHistory) (h : strconv.Atoi seg = some z) :
    (VoterAPI.AddSinglePollToVoter v seg (some poll)).calls =
      [db.Op.addPoll (uint z) poll] := by
  rw [AddSinglePollToVoter_of_Atoi v seg z poll h]
  split <;> rfl

theorem rejected_segment (v : VoterAPI) (seg : String) (h : strconv.Atoi seg = none) :
    VoterAPI.GetVoter v seg =
      { status := 400, body := Body.failure "Bad Request", calls := [], after := v } ∧
    VoterAPI.GetPollHistoryFromVoter v seg =
      { status := 400, body := Body.failure "Bad Request", calls := [], after := v } ∧
    (∀ seg2 : String, VoterAPI.GetSinglePollFromVoter v seg seg2 =
      { status := 400, body := Body.failure "Bad Request", calls := [], after := v }) ∧
    (∀ parsed : Option db.VoterHistory, VoterAPI.AddSinglePollToVoter v seg parsed =
      { status := 400, body := Body.failure "Bad Request", calls := [], after := v }) ∧
    VoterAPI.DeleteVoter v seg =
      { status := 400, body := Body.failure "Bad Request", calls := [], after := v } := by
  refine ⟨?_, ?_, ?_, ?_, ?_⟩
  · unfold VoterAPI.GetVoter
    rw [h]
  · unfold VoterAPI.GetPollHistoryFromVoter
    rw [h]
  · intro seg2
    unfold VoterAPI.GetSinglePollFromVoter
    rw [h]
  · intro parsed
    unfold VoterAPI.AddSinglePollToVoter
    rw [h]
  · unfold VoterAPI.DeleteVoter
    rw [h]

theorem rejected_poll_segment (v : VoterAPI) (seg seg2 : String)
    (h : strconv.Atoi seg2 = none) :
    VoterAPI.GetSinglePollFromVoter v seg seg2 =
      { status := 400, body := Body.failure "Bad Request", calls := [], after := v } := by
  unfold VoterAPI.GetSinglePollFromVoter
  rw [h]
  cases strconv.Atoi seg <;> rfl

theorem called_only_if_accepted (v : VoterAPI) (seg : String) :
    ((VoterAPI.GetVoter v seg).calls ≠ [] → ∃ z, strconv.Atoi seg = some z) ∧
    ((VoterAPI.GetPollHistoryFromVoter v seg).calls ≠ [] → ∃ z, strconv.Atoi seg = some z) ∧
    (∀ parsed, (VoterAPI.AddSinglePollToVoter v seg parsed).calls ≠ [] →
      ∃ z, strconv.Atoi seg = some z) ∧
    ((VoterAPI.DeleteVoter v seg).calls ≠ [] → ∃ z, strconv.Atoi seg = some z) := by
  cases h : strconv.Atoi seg with
  | some z => exact ⟨fun _ => ⟨z, rfl⟩, fun _ => ⟨z, rfl⟩, fun _ _ => ⟨z, rfl⟩, fun _ => ⟨z, rfl⟩⟩
  | none =>
    have hr := rejected_segment v seg h
    refine ⟨?_, ?_, ?_, ?_⟩
    · intro hc
      rw [hr.1] at hc
      exact absurd rfl hc
    · intro hc
      rw [hr.2.1] at hc
      exact absurd rfl hc
    · intro parsed hc
      rw [hr.2.2.2.1 parsed] at hc
      exact absurd rfl hc
    · intro hc
      rw [hr.2.2.2.2] at hc
      exact absurd rfl hc

/-- C17, as it fails: the segment `-5` is not a non-negative decimal integer,
yet the handler `GetVoter` calls the Store for it (with the identifier
`2^64 - 5`) and, on a store that holds that identifier, answers 200, not
400. -/
theorem GetVoter_negative_segment_reaches_store :
    strconv.isDecimalNat "-5" = false ∧
    (VoterAPI.GetVoter { db := db.storeHigh } "-5").calls =
      [db.Op.getVoter 18446744073709551611] ∧
    (VoterAPI.GetVoter { db := db.storeHigh } "-5").status = 200 := by
  decide

/-- C17, amended: for the `id` segment given to the handlers `GetVoter`,
`GetPollHistoryFromVoter`, `GetSinglePollFromVoter`, `AddSinglePollToVoter`
and `DeleteVoter`, and the `pollid` segment of `GetSinglePollFromVoter`:
when `strconv.Atoi` rejects the segment the handler answers 400, calls no
Store method and leaves the store as it was; the Store is called only when
`strconv.Atoi` accepts every segment of the handler, which needs the segment
to be a decimal integer (an optional sign, then one or more digits) from
`-2^63` to `2^63 - 1`; and when the accepted integers are non-negative the
one Store call is made with exactly these integers as identifiers.  A
segment of one or more digits whose value is below `2^63` is accepted with
that value. -/
theorem segment_guard (v : VoterAPI) (seg seg2 : String) :
    (strconv.Atoi seg = none →
      VoterAPI.GetVoter v seg =
        { status := 400, body := Body.failure "Bad Request", calls := [], after := v } ∧
      VoterAPI.GetPollHistoryFromVoter v seg =
        { status := 400, body := Body.failure "Bad Request", calls := [], after := v } ∧
      VoterAPI.GetSinglePollFromVoter v seg seg2 =
        { status := 400, body := Body.failure "Bad Request", calls := [], after := v } ∧
      (∀ parsed : Option db.VoterHistory, VoterAPI.AddSinglePollToVoter v seg parsed =
        { status := 400, body := Body.failure "Bad Request", calls := [], after := v }) ∧
      VoterAPI.DeleteVoter v seg =
        { status := 400, body := Body.failure "Bad Request", calls := [], after := v }) ∧
    (strconv.Atoi seg2 = none →
      VoterAPI.GetSinglePollFromVoter v seg seg2 =
        { status := 400, body := Body.failure "Bad Request", calls := [], after := v }) ∧
    ((VoterAPI.GetVoter v seg).calls ≠ [] → ∃ z, strconv.Atoi seg = some z) ∧
    ((VoterAPI.GetPollHistoryFromVoter v seg).calls ≠ [] → ∃ z, strconv.Atoi seg = some z) ∧
    ((VoterAPI.GetSinglePollFromVoter v seg seg2).calls ≠ [] →
      (∃ z, strconv.Atoi seg = some z) ∧ (∃ z2, strconv.Atoi seg2 = some z2)) ∧
    (∀ parsed : Option db.VoterHistory,
      (VoterAPI.AddSinglePollToVoter v seg parsed).calls ≠ [] →
      ∃ z, strconv.Atoi seg = some z) ∧
    ((VoterAPI.DeleteVoter v seg).calls ≠ [] → ∃ z, strconv.Atoi seg = some z) ∧
    (∀ z : Int, strconv.Atoi seg = some z →
      strconv.isDecimalInt seg = true ∧ -(2 ^ 63 : Int) ≤ z ∧ z < 2 ^ 63) ∧
    (∀ n : Nat, strconv.Atoi seg = some (n : Int) →
      (VoterAPI.GetVoter v seg).calls = [db.Op.getVoter n] ∧
      (VoterAPI.GetPollHistoryFromVoter v seg).calls = [db.Op.getVoteHistory n] ∧
      (∀ m : Nat, strconv.Atoi seg2 = some (m : Int) →
        (VoterAPI.GetSinglePollFromVoter v seg seg2).calls =
          [db.Op.getSingleVoteHistory n m]) ∧
      (∀ poll : db.VoterHistory,
        (VoterAPI.AddSinglePollToVoter v seg (some poll)).calls = [db.Op.addPoll n poll]) ∧
      (VoterAPI.DeleteVoter v seg).calls = [db.Op.deleteVoter n]) ∧
    (strconv.isDecimalNat seg = true → strconv.decimalValue seg.data < 2 ^ 63 →
      strconv.Atoi seg = some (strconv.decimalValue seg.data : Int)) := by
  have hc := called_only_if_accepted v seg
  refine ⟨?_, rejected_poll_segment v seg seg2, hc.1, hc.2.1,
    calls_nonempty_GetSinglePoll v seg seg2, hc.2.2.1, hc.2.2.2, ?_, ?_, ?_⟩
  · intro h
    have hr := rejected_segment v seg h
    exact ⟨hr.1, hr.2.1, hr.2.2.1 seg2, hr.2.2.2.1, hr.2.2.2.2⟩
  · intro z hz
    exact ⟨strconv.Atoi_isDecimalInt hz, strconv.Atoi_range hz⟩
  · intro n hn
    have hu : uint (n : Int) = n := uint_of_Atoi hn
    refine ⟨?_, ?_, ?_, ?_, ?_⟩
    · rw [GetVoter_calls v seg n hn, hu]
    · rw [GetPollHistoryFromVoter_calls v seg n hn, hu]
    · intro m hm
      rw [GetSinglePollFromVoter_calls v seg seg2 n m hn hm, hu, uint_of_Atoi hm]
    · intro poll
      rw [AddSinglePollToVoter_calls v seg n poll hn, hu]
    · rw [DeleteVoter_of_Atoi v seg n hn, hu]
  · intro h1 h2
    exact strconv.Atoi_of_isDecimalNat h1 h2

/-- C17, amended, on requests to the store loaded by the test suite: the
segment `2` reaches the Store as identifier 2, the segment `abc` is answered
with 400 and no Store call. -/
theorem segment_guard_witness :
    strconv.Atoi "2" = some ((2 : Nat) : Int) ∧
    (VoterAPI.GetVoter { db := db.storeLoaded } "2").calls = [db.Op.getVoter 2] ∧
    (VoterAPI.DeleteVoter { db := db.storeLoaded } "2").calls = [db.Op.deleteVoter 2] ∧
    strconv.Atoi "abc" = none ∧
    VoterAPI.GetVoter { db := db.storeLoaded } "abc" =
      { status := 400, body := Body.failure "Bad Request", calls := [],
        after := { db := db.storeLoaded } } :=
  ⟨by decide,
    ((segment_guard { db := db.storeLoaded } "2" "1").2.2.2.2.2.2.2.2.1 2 (by decide)).1,
    ((segment_guard { db := db.storeLoaded } "2" "1").2.2.2.2.2.2.2.2.1 2
      (by decide)).2.2.2.2,
    by decide,
    ((segment_guard { db := db.storeLoaded } "abc" "1").1 (by decide)).1⟩

theorem ListAllVoters_eq (v : VoterAPI) :
    VoterAPI.ListAllVoters v =
      { status := 200,
        body := Body.voters (if (db.GetAllVoters v.db).1.1 = db.Slice.nil then db.Slice.mk []
          else (db.GetAllVoters v.db).1.1),
        calls := [db.Op.getAllVoters], after := v } := rfl

/-- C19: for every store the handler `ListAllVoters` answers 200 (never 404),
makes the one Store call `GetAllVoters`, leaves the store as it was and
hands `c.JSON` an allocated slice, never the `nil` slice: its elements are
those `GetAllVoters` returned, which are, up to order, the records stored
under the keys; when the store has no key it is the allocated empty slice. -/
theorem ListAllVoters_sends_array (v : VoterAPI) :
    (VoterAPI.ListAllVoters v).status = 200 ∧
    (VoterAPI.ListAllVoters v).status ≠ 404 ∧
    (VoterAPI.ListAllVoters v).body =
      Body.voters (db.Slice.mk (db.GetAllVoters v.db).1.1.toList) ∧
    (VoterAPI.ListAllVoters v).body ≠ Body.voters db.Slice.nil ∧
    List.Perm (db.GetAllVoters v.db).1.1.toList
      (v.db.Voters.keys.map (fun k => (db.GetVoter v.db k).1.1)) ∧
    (v.db.Voters.keys = [] →
      (VoterAPI.ListAllVoters v).body = Body.voters (db.Slice.mk [])) ∧
    (VoterAPI.ListAllVoters v).calls = [db.Op.getAllVoters] ∧
    (VoterAPI.ListAllVoters v).after = v := by
  have hbody : (VoterAPI.ListAllVoters v).body =
      Body.voters (db.Slice.mk (db.GetAllVoters v.db).1.1.toList) := by
    rw [ListAllVoters_eq]
    cases hs : (db.GetAllVoters v.db).1.1 with
    | nil => simp [db.Slice.toList]
    | mk l => simp [db.Slice.toList]
  refine ⟨rfl, ?_, hbody, ?_, ?_, ?_, rfl, rfl⟩
  · rw [ListAllVoters_eq]
    exact (by decide : (200 : Nat) ≠ 404)
  · rw [hbody]
    intro h
    cases h
  · rw [db.GetAllVoters_toList, db.values_eq_map_keys]
  · intro hk
    rw [hbody, db.GetAllVoters_of_no_keys v.db hk]
    rfl

/-- C19 on the store `NewVoterList` creates: the handler hands `c.JSON` the
allocated empty slice. -/
theorem ListAllVoters_sends_array_witness :
    db.emptyStore.Voters.keys = [] ∧
    (VoterAPI.ListAllVoters { db := db.emptyStore }).body = Body.voters (db.Slice.mk []) :=
  ⟨rfl, (ListAllVoters_sends_array { db := db.emptyStore }).2.2.2.2.2.1 rfl⟩

end api

/-! ## The legacy store -/

namespace todoapi

/-- C20, on the code: the legacy `DeleteVoter` makes no check that the key
exists.  On the store `NewVoterList` creates, where 7 is not a key,
`DeleteVoter 7` returns no error and leaves the store as it was; and it
returns no error for any store and any identifier. -/
theorem legacy_DeleteVoter_returns_no_error :
    7 ∉ NewVoterList.1.Voters ∧
    DeleteVoter NewVoterList.1 7 = (none, NewVoterList.1) ∧
    (∀ (s : db.VoterList) (id : Nat), (DeleteVoter s id).1 = none) :=
  ⟨by decide, rfl, fun _ _ => rfl⟩

end todoapi

/-! ## Frame properties of the store -/

namespace db

theorem lookup_AddVoter_ne (s : VoterList) (r : Voter) (j : Nat) (h : r.VoterId ≠ j) :
    (AddVoter s r).2.Voters.lookup j = s.Voters.lookup j := by
  by_cases hin : r.VoterId ∈ s.Voters
  · rw [AddVoter_present s r hin]
  · rw [AddVoter_absent s r hin]
    exact AList.lookup_insert_ne (Ne.symm h)

theorem lookup_UpdateVoter_ne (s : VoterList) (r : Voter) (j : Nat) (h : r.VoterId ≠ j) :
    (UpdateVoter s r).2.Voters.lookup j = s.Voters.lookup j := by
  by_cases hin : r.VoterId ∈ s.Voters
  · rw [UpdateVoter_present s r hin]
    exact AList.lookup_insert_ne (Ne.symm h)
  · rw [UpdateVoter_absent s r hin]

theorem lookup_DeleteVoter_ne (s : VoterList) (id j : Nat) (h : id ≠ j) :
    (DeleteVoter s id).2.Voters.lookup j = s.Voters.lookup j :=
  AList.lookup_erase_ne (Ne.symm h)

theorem AddPoll_of_lookup (s : VoterList) (id : Nat) (v : VoterHistory) (r : Voter)
    (h : s.Voters.lookup id = some r) :
    AddPoll s id v =
      (none, { Voters := s.Voters.insert id ({ r with VoteHistory := r.VoteHistory ++ [v] }) }) := by
  simp [AddPoll, h]

theorem AddPoll_of_absent (s : VoterList) (id : Nat) (v : VoterHistory)
    (h : s.Voters.lookup id = none) : AddPoll s id v = (some "voter not found", s) := by
  simp [AddPoll, h]

theorem lookup_AddPoll_ne (s : VoterList) (id j : Nat) (v : VoterHistory) (h : id ≠ j) :
    (AddPoll s id v).2.Voters.lookup j = s.Voters.lookup j := by
  cases hl : s.Voters.lookup id with
  | none => rw [AddPoll_of_absent s id v hl]
  | some r =>
    rw [AddPoll_of_lookup s id v r hl]
    exact AList.lookup_insert_ne (Ne.symm h)

/-- C21: for every store and all arguments, the store after `GetVoter`,
`GetAllVoters`, `GetVoteHistory` or `GetSingleVoteHistory` is the store before
the call, whether the call returns an error or not; the same holds for
`GetVoter` and `GetAllVoters` of the legacy store. -/
theorem reads_leave_store_unchanged (s : VoterList) (id p : Nat) :
    (GetVoter s id).2 = s ∧
    (GetAllVoters s).2 = s ∧
    (GetVoteHistory s id).2 = s ∧
    (GetSingleVoteHistory s id p).2 = s ∧
    (todoapi.GetVoter s id).2 = s ∧
    (todoapi.GetAllVoters s).2 = s := by
  refine ⟨GetVoter_store s id, GetAllVoters_store s, GetVoteHistory_store s id,
    GetSingleVoteHistory_store s id p, ?_, rfl⟩
  unfold todoapi.GetVoter
  cases s.Voters.lookup id <;> rfl

namespace mem

theorem append_heap_other (growth : Nat → Nat) (heap : Heap) (h : SliceHeader)
    (x : VoterHistory) (a : Nat) (ha : a < heap.length)
    (hne : a ≠ h.array ∨ ¬ h.len < h.cap) :
    (append growth heap h x).1[a]? = heap[a]? := by
  unfold append
  by_cases hlt : h.len < h.cap
  · rw [if_pos hlt]
    have hne2 : h.array ≠ a := by
      rcases hne with h1 | h1
      · exact Ne.symm h1
      · exact absurd hlt h1
    exact List.getElem?_set_ne hne2
  · rw [if_neg hlt]
    exact List.getElem?_append_left ha

theorem append_elems_other (growth : Nat → Nat) (heap : Heap) (h hj : SliceHeader)
    (x : VoterHistory) (ha : hj.array < heap.length)
    (hsep : hj.array ≠ h.array ∨ ¬ h.len < h.cap ∨ h.offset + h.len < hj.offset ∨
      hj.offset + hj.len ≤ h.offset + h.len) :
    hj.elems (append growth heap h x).1 = hj.elems heap := by
  by_cases hout : hj.array ≠ h.array ∨ ¬ h.len < h.cap
  · unfold SliceHeader.elems
    rw [append_heap_other growth heap h x hj.array ha hout]
  · have hsame : hj.array = h.array := by
      by_contra hne
      exact hout (Or.inl hne)
    have hlt : h.len < h.cap := by
      by_contra hn
      exact hout (Or.inr hn)
    have hcell : h.offset + h.len < hj.offset ∨ hj.offset + hj.len ≤ h.offset + h.len := by
      rcases hsep with h1 | h1 | h1 | h1
      · exact absurd hsame h1
      · exact absurd hlt h1
      · exact Or.inl h1
      · exact Or.inr h1
    have ha2 : h.array < heap.length := by
      rw [← hsame]
      exact ha
    unfold SliceHeader.elems append
    rw [if_pos hlt, hsame]
    simp only [List.getElem?_set_self ha2, Option.getD_some]
    generalize (heap[h.array]?).getD [] = a
    apply List.ext_getElem?
    intro i
    simp only [List.getElem?_take, List.getElem?_drop, List.getElem?_set]
    by_cases hi : i < hj.len
    · have hne : ¬ h.offset + h.len = hj.offset + i := by omega
      simp [hi, hne]
    · simp [hi]

theorem append_own_elems (growth : Nat → Nat) (heap : Heap) (h : SliceHeader)
    (x : VoterHistory) (ha : h.array < heap.length)
    (hcap : h.offset + h.cap ≤ ((heap[h.array]?).getD []).length) (hlen : h.len ≤ h.cap) :
    (append growth heap h x).2.elems (append growth heap h x).1 = h.elems heap ++ [x] := by
  unfold append
  by_cases hlt : h.len < h.cap
  · rw [if_pos hlt]
    unfold SliceHeader.elems
    simp only [List.getElem?_set_self ha, Option.getD_some]
    generalize (heap[h.array]?).getD [] = a at hcap
    apply List.ext_getElem?
    intro i
    simp only [List.getElem?_take, List.getElem?_drop, List.getElem?_set,
      List.getElem?_append, List.length_take, List.length_drop]
    have hmin : min h.len (a.length - h.offset) = h.len := by omega
    rw [hmin]
    rcases Nat.lt_trichotomy i h.len with hi | hi | hi
    · have h1 : i < h.len + 1 := by omega
      have h2 : ¬ h.offset + h.len = h.offset + i := by omega
      simp [h1, h2, hi]
    · have h3 : h.offset + h.len < a.length := by omega
      subst hi
      simp [h3]
    · have h1 : ¬ i < h.len + 1 := by omega
      have h2 : ¬ i < h.len := by omega
      have h3 : i - h.len ≠ 0 := by omega
      simp [h1, h2]
      cases hk : i - h.len with
      | zero => exact absurd hk h3
      | succ k => simp
  · rw [if_neg hlt]
    have hel : (h.elems heap).length = h.len := by
      unfold SliceHeader.elems
      simp only [List.length_take, List.length_drop]
      omega
    unfold SliceHeader.elems at hel ⊢
    simp only [List.getElem?_append_right (Nat.le_refl heap.length), Nat.sub_self,
      List.getElem?_cons_zero, Option.getD_some, List.drop_zero]
    rw [List.take_append_eq_append_take, hel]
    simp

theorem mem_lookup_AddVoter_ne (s : VoterList) (r : Voter) (j : Nat) (h : r.VoterId ≠ j) :
    (AddVoter s r).2.Voters.lookup j = s.Voters.lookup j ∧ (AddVoter s r).2.heap = s.heap := by
  unfold AddVoter
  cases s.Voters.lookup r.VoterId with
  | some c => exact ⟨rfl, rfl⟩
  | none => exact ⟨AList.lookup_insert_ne (Ne.symm h), rfl⟩

theorem mem_lookup_UpdateVoter_ne (s : VoterList) (r : Voter) (j : Nat)
    (h : r.VoterId ≠ j) :
    (UpdateVoter s r).2.Voters.lookup j = s.Voters.lookup j ∧
    (UpdateVoter s r).2.heap = s.heap := by
  unfold UpdateVoter
  cases s.Voters.lookup r.VoterId with
  | some c => exact ⟨AList.lookup_insert_ne (Ne.symm h), rfl⟩
  | none => exact ⟨rfl, rfl⟩

theorem mem_lookup_DeleteVoter_ne (s : VoterList) (id j : Nat) (h : id ≠ j) :
    (DeleteVoter s id).2.Voters.lookup j = s.Voters.lookup j ∧
    (DeleteVoter s id).2.heap = s.heap :=
  ⟨AList.lookup_erase_ne (Ne.symm h), rfl⟩

theorem mem_AddPoll_of_lookup (growth : Nat → Nat) (s : VoterList) (id : Nat)
    (v : VoterHistory) (ct : Voter) (h : s.Voters.lookup id = some ct) :
    AddPoll growth s id v =
      (none,
        { Voters := s.Voters.insert id
            ({ VoterId := ct.VoterId, Name := ct.Name, Email := ct.Email,
               VoteHistory := (append growth s.heap ct.VoteHistory v).2 }),
          heap := (append growth s.heap ct.VoteHistory v).1 }) := by
  unfold AddPoll
  rw [h]

theorem mem_AddPoll_of_absent (growth : Nat → Nat) (s : VoterList) (id : Nat)
    (v : VoterHistory) (h : s.Voters.lookup id = none) :
    AddPoll growth s id v = (some "voter not found", s) := by
  unfold AddPoll
  rw [h]

theorem mem_lookup_AddPoll_ne (growth : Nat → Nat) (s : VoterList) (id j : Nat)
    (v : VoterHistory) (h : id ≠ j) :
    (AddPoll growth s id v).2.Voters.lookup j = s.Voters.lookup j := by
  cases hl : s.Voters.lookup id with
  | none => rw [mem_AddPoll_of_absent growth s id v hl]
  | some ct =>
    rw [mem_AddPoll_of_lookup growth s id v ct hl]
    exact AList.lookup_insert_ne (Ne.symm h)

theorem mem_same_key_of_lookup_eq (s t : VoterList) (j : Nat)
    (h : t.Voters.lookup j = s.Voters.lookup j) :
    (j ∈ t.Voters ↔ j ∈ s.Voters) ∧
    (GetVoter t j).1.2 = (GetVoter s j).1.2 ∧
    (GetVoter t j).1.1.VoterId = (GetVoter s j).1.1.VoterId ∧
    (GetVoter t j).1.1.Name = (GetVoter s j).1.1.Name ∧
    (GetVoter t j).1.1.Email = (GetVoter s j).1.1.Email := by
  refine ⟨?_, ?_, ?_, ?_, ?_⟩
  · rw [← AList.lookup_isSome, ← AList.lookup_isSome, h]
  all_goals
    unfold GetVoter
    rw [h]
    cases s.Voters.lookup j <;> rfl

theorem mem_same_record (s t : VoterList) (j : Nat)
    (h : t.Voters.lookup j = s.Voters.lookup j)
    (hheap : ∀ c : Voter, s.Voters.lookup j = some c →
      c.VoteHistory.elems t.heap = c.VoteHistory.elems s.heap) :
    (GetVoter t j).1 = (GetVoter s j).1 := by
  unfold GetVoter
  rw [h]
  cases hl : s.Voters.lookup j with
  | none => rfl
  | some c =>
    show (c.read t.heap, none) = (c.read s.heap, none)
    unfold Voter.read
    rw [hheap c hl]

theorem mem_same_record_of_heap_eq (s t : VoterList) (j : Nat)
    (h : t.Voters.lookup j = s.Voters.lookup j ∧ t.heap = s.heap) :
    (j ∈ t.Voters ↔ j ∈ s.Voters) ∧ (GetVoter t j).1 = (GetVoter s j).1 :=
  ⟨(mem_same_key_of_lookup_eq s t j h.1).1,
    mem_same_record s t j h.1 (fun _ _ => by rw [h.2])⟩

theorem AddPoll_own_history (growth : Nat → Nat) (s : VoterList) (id : Nat)
    (v : VoterHistory) (ct : Voter) (hl : s.Voters.lookup id = some ct)
    (ha : ct.VoteHistory.array < s.heap.length)
    (hcap : ct.VoteHistory.offset + ct.VoteHistory.cap ≤
      ((s.heap[ct.VoteHistory.array]?).getD []).length)
    (hlen : ct.VoteHistory.len ≤ ct.VoteHistory.cap) :
    (GetVoter (AddPoll growth s id v).2 id).1 =
      ({ VoterId := ct.VoterId, Name := ct.Name, Email := ct.Email,
         VoteHistory := (ct.read s.heap).VoteHistory ++ [v] }, none) := by
  rw [mem_AddPoll_of_lookup growth s id v ct hl]
  unfold GetVoter
  simp only [AList.lookup_insert]
  unfold Voter.read
  simp only [append_own_elems growth s.heap ct.VoteHistory v ha hcap hlen]

/-- C23, as it fails: voters 1 and 2 were added with one slice of length 2 and
capacity 10 as their history, and voter 1 was given a poll, so that its
history ends with the entry for poll 50.  `AddPoll 2` of an entry for poll 60
returns no error and voter 1, which is not its target, is read back with its
last entry replaced by the entry for poll 60. -/
theorem AddPoll_overwrites_shared_entry :
    (GetVoter storeSharedPolled 1).1 =
      ({ VoterId := 1, Name := "A", Email := "a@x.com",
         VoteHistory := [entry 1 1, entry 2 2, entry 50 50] }, none) ∧
    (AddPoll double storeSharedPolled 2 (entry 60 60)).1 = none ∧
    (GetVoter (AddPoll double storeSharedPolled 2 (entry 60 60)).2 1).1 =
      ({ VoterId := 1, Name := "A", Email := "a@x.com",
         VoteHistory := [entry 1 1, entry 2 2, entry 60 60] }, none) ∧
    (GetVoter (AddPoll double storeSharedPolled 2 (entry 60 60)).2 1).1 ≠
      (GetVoter storeSharedPolled 1).1 := by
  refine ⟨by decide, by decide, by decide, by decide⟩

/-- C23, amended: for every store, with its slices in memory, and every
identifier `j` other than the target of the call: `AddVoter r`,
`UpdateVoter r` (target `r.VoterId`) and `DeleteVoter id` leave `j` as it
was, whether they return an error or not: `j` is a key afterwards exactly
when it was before and `GetVoter j` returns what it returned before, history
included.  `AddPoll id v` leaves `j` a key exactly when it was before and
leaves the struct stored under `j` as it was (`VoterId`, `Name`, `Email` and
the slice header of its history, so its length); an `AddPoll` that returns
an error changes nothing at all; and `GetVoter j` returns what it returned
before, history included, unless `append` writes in place into a cell that
the history of `j` shows: that is, when the backing array of the history of
`j` (an allocated array of the heap) is not the backing array of the history
of the target, or the history of the target is at its capacity (so that
`append` allocates), or the cell after the history of the target lies before
or after the cells of the history of `j`. -/
theorem mutations_local_unless_shared (growth : Nat → Nat) (s : VoterList) (j : Nat) :
    (∀ r : Voter, r.VoterId ≠ j →
      (j ∈ (AddVoter s r).2.Voters ↔ j ∈ s.Voters) ∧
      (GetVoter (AddVoter s r).2 j).1 = (GetVoter s j).1) ∧
    (∀ r : Voter, r.VoterId ≠ j →
      (j ∈ (UpdateVoter s r).2.Voters ↔ j ∈ s.Voters) ∧
      (GetVoter (UpdateVoter s r).2 j).1 = (GetVoter s j).1) ∧
    (∀ id : Nat, id ≠ j →
      (j ∈ (DeleteVoter s id).2.Voters ↔ j ∈ s.Voters) ∧
      (GetVoter (DeleteVoter s id).2 j).1 = (GetVoter s j).1) ∧
    (∀ (id : Nat) (v : VoterHistory), id ≠ j →
      (j ∈ (AddPoll growth s id v).2.Voters ↔ j ∈ s.Voters) ∧
      (AddPoll growth s id v).2.Voters.lookup j = s.Voters.lookup j ∧
      (GetVoter (AddPoll growth s id v).2 j).1.2 = (GetVoter s j).1.2 ∧
      (GetVoter (AddPoll growth s id v).2 j).1.1.VoterId = (GetVoter s j).1.1.VoterId ∧
      (GetVoter (AddPoll growth s id v).2 j).1.1.Name = (GetVoter s j).1.1.Name ∧
      (GetVoter (AddPoll growth s id v).2 j).1.1.Email = (GetVoter s j).1.1.Email ∧
      ((AddPoll growth s id v).1 ≠ none → (AddPoll growth s id v).2 = s) ∧
      (∀ cj ct : Voter, s.Voters.lookup j = some cj → s.Voters.lookup id = some ct →
        cj.VoteHistory.array < s.heap.length →
        (cj.VoteHistory.array ≠ ct.VoteHistory.array ∨
          ¬ ct.VoteHistory.len < ct.VoteHistory.cap ∨
          ct.VoteHistory.offset + ct.VoteHistory.len < cj.VoteHistory.offset ∨
          cj.VoteHistory.offset + cj.VoteHistory.len ≤
            ct.VoteHistory.offset + ct.VoteHistory.len) →
        (GetVoter (AddPoll growth s id v).2 j).1 = (GetVoter s j).1)) := by
  refine ⟨?_, ?_, ?_, ?_⟩
  · intro r h
    exact mem_same_record_of_heap_eq s _ j (mem_lookup_AddVoter_ne s r j h)
  · intro r h
    exact mem_same_record_of_heap_eq s _ j (mem_lookup_UpdateVoter_ne s r j h)
  · intro id h
    exact mem_same_record_of_heap_eq s _ j (mem_lookup_DeleteVoter_ne s id j h)
  · intro id v h
    have hl := mem_lookup_AddPoll_ne growth s id j v h
    have hk := mem_same_key_of_lookup_eq s _ j hl
    refine ⟨hk.1, hl, hk.2.1, hk.2.2.1, hk.2.2.2.1, hk.2.2.2.2, ?_, ?_⟩
    · intro herr
      cases hid : s.Voters.lookup id with
      | none => rw [mem_AddPoll_of_absent growth s id v hid]
      | some ct =>
        rw [mem_AddPoll_of_lookup growth s id v ct hid] at herr
        exact absurd rfl herr
    · intro cj ct hj hid ha hsep
      apply mem_same_record s _ j hl
      intro c hc
      rw [hj] at hc
      injection hc with hc
      rw [← hc, mem_AddPoll_of_lookup growth s id v ct hid]
      exact append_elems_other growth s.heap ct.VoteHistory cj.VoteHistory v ha hsep

/-- C23, amended, on two stores: where voters 1 and 2 have arrays of their own,
`AddPoll 2` leaves voter 1 as it was, history included; where they share one
array, `AddPoll 1` writes the cell after the two entries that voter 2 shows
and so leaves voter 2 as it was, and `DeleteVoter 2` leaves voter 1 as it
was. -/
theorem mutations_local_unless_shared_witness :
    (GetVoter (AddPoll double storeApart 2 (entry 60 60)).2 1).1 =
      (GetVoter storeApart 1).1 ∧
    (GetVoter storeApart 1).1.1.VoteHistory = [entry 1 1, entry 2 2] ∧
    (GetVoter (AddPoll double storeShared 1 (entry 50 50)).2 2).1 =
      (GetVoter storeShared 2).1 ∧
    (GetVoter (DeleteVoter storeSharedPolled 2).2 1).1 = (GetVoter storeSharedPolled 1).1 :=
  ⟨((mutations_local_unless_shared double storeApart 1).2.2.2 2 (entry 60 60)
      (by decide)).2.2.2.2.2.2.2
      { VoterId := 1, Name := "A", Email := "a@x.com", VoteHistory := shared }
      { VoterId := 2, Name := "B", Email := "b@x.com",
        VoteHistory := { array := 1, offset := 0, len := 2, cap := 10 } }
      (by decide) (by decide) (by decide) (Or.inl (by decide)),
    by decide,
    ((mutations_local_unless_shared double storeShared 2).2.2.2 1 (entry 50 50)
      (by decide)).2.2.2.2.2.2.2
      { VoterId := 2, Name := "B", Email := "b@x.com", VoteHistory := shared }
      { VoterId := 1, Name := "A", Email := "a@x.com", VoteHistory := shared }
      (by decide) (by decide) (by decide) (Or.inr (Or.inr (Or.inr (by decide)))),
    ((mutations_local_unless_shared double storeSharedPolled 1).2.2.1 2 (by decide)).2⟩

end mem

/-! ## The key of a record is its `VoterId` -/

theorem key_is_VoterId_apply (s : VoterList) (op : Op)
    (hs : ∀ (k : Nat) (r : Voter), s.Voters.lookup k = some r → r.VoterId = k) :
    ∀ (k : Nat) (r : Voter), (op.apply s).2.Voters.lookup k = some r → r.VoterId = k := by
  intro k r hl
  cases op with
  | addVoter r0 =>
    have hl1 : (AddVoter s r0).2.Voters.lookup k = some r := hl
    by_cases hk : r0.VoterId = k
    · by_cases hin : r0.VoterId ∈ s.Voters
      · rw [AddVoter_present s r0 hin] at hl1
        exact hs k r hl1
      · rw [AddVoter_absent s r0 hin, ← hk] at hl1
        have hl2 : (AList.insert r0.VoterId r0 s.Voters).lookup r0.VoterId = some r := hl1
        rw [AList.lookup_insert] at hl2
        injection hl2 with hl2
        rw [← hl2]
        exact hk
    · rw [lookup_AddVoter_ne s r0 k hk] at hl1
      exact hs k r hl1
  | updateVoter r0 =>
    have hl1 : (UpdateVoter s r0).2.Voters.lookup k = some r := hl
    by_cases hk : r0.VoterId = k
    · by_cases hin : r0.VoterId ∈ s.Voters
      · rw [UpdateVoter_present s r0 hin, ← hk] at hl1
        have hl2 : (AList.insert r0.VoterId r0 s.Voters).lookup r0.VoterId = some r := hl1
        rw [AList.lookup_insert] at hl2
        injection hl2 with hl2
        rw [← hl2]
        exact hk
      · rw [UpdateVoter_absent s r0 hin] at hl1
        exact hs k r hl1
    · rw [lookup_UpdateVoter_ne s r0 k hk] at hl1
      exact hs k r hl1
  | deleteVoter id =>
    have hl1 : (DeleteVoter s id).2.Voters.lookup k = some r := hl
    by_cases hk : id = k
    · rw [← hk] at hl1
      have hl2 : (AList.erase id s.Voters).lookup id = some r := hl1
      rw [AList.lookup_erase] at hl2
      cases hl2
    · rw [lookup_DeleteVoter_ne s id k hk] at hl1
      exact hs k r hl1
  | deleteAll =>
    have hl1 : (∅ : AList (fun _ : Nat => Voter)).lookup k = some r := hl
    rw [AList.lookup_empty] at hl1
    cases hl1
  | addPoll id v =>
    have hl1 : (AddPoll s id v).2.Voters.lookup k = some r := hl
    by_cases hk : id = k
    · cases h0 : s.Voters.lookup id with
      | none =>
        rw [AddPoll_of_absent s id v h0] at hl1
        exact hs k r hl1
      | some r0 =>
        rw [AddPoll_of_lookup s id v r0 h0, ← hk] at hl1
        have hl2 : (AList.insert id ({ r0 with VoteHistory := r0.VoteHistory ++ [v] })
            s.Voters).lookup id = some r := hl1
        rw [AList.lookup_insert] at hl2
        injection hl2 with hl2
        rw [← hl2, ← hk]
        exact hs id r0 h0
    · rw [lookup_AddPoll_ne s id k v hk] at hl1
      exact hs k r hl1
  | getVoter id =>
    have hl1 : (GetVoter s id).2.Voters.lookup k = some r := hl
    rw [GetVoter_store] at hl1
    exact hs k r hl1
  | getAllVoters => exact hs k r hl
  | getVoteHistory id =>
    have hl1 : (GetVoteHistory s id).2.Voters.lookup k = some r := hl
    rw [GetVoteHistory_store] at hl1
    exact hs k r hl1
  | getSingleVoteHistory id p =>
    have hl1 : (GetSingleVoteHistory s id p).2.Voters.lookup k = some r := hl
    rw [GetSingleVoteHistory_store] at hl1
    exact hs k r hl1

theorem key_is_VoterId_run (ops : List Op) (s : VoterList)
    (hs : ∀ (k : Nat) (r : Voter), s.Voters.lookup k = some r → r.VoterId = k) :
    ∀ (k : Nat) (r : Voter), (run s ops).Voters.lookup k = some r → r.VoterId = k := by
  induction ops generalizing s with
  | nil => exact hs
  | cons op t ih =>
    have hstep : run s (op :: t) = run (op.apply s).2 t := rfl
    rw [hstep]
    exact ih (op.apply s).2 (key_is_VoterId_apply s op hs)

theorem key_is_VoterId_fresh (k : Nat) (r : Voter)
    (h : NewVoterList.1.Voters.lookup k = some r) : r.VoterId = k := by
  have h1 : (∅ : AList (fun _ : Nat => Voter)).lookup k = some r := h
  rw [AList.lookup_empty] at h1
  cases h1

/-- C22: in the store reached from the one `NewVoterList` creates by any
sequence of Store calls (`AddVoter`, `UpdateVoter`, `DeleteVoter`,
`DeleteAll`, `AddPoll`, and the reads), the record stored under a key `k` has
`VoterId = k`; so whenever `GetVoter k` returns no error on such a store, the
record it returns has `VoterId = k`. -/
theorem stored_record_has_its_key (ops : List Op) (k : Nat) :
    (∀ r : Voter, (run NewVoterList.1 ops).Voters.lookup k = some r → r.VoterId = k) ∧
    ((GetVoter (run NewVoterList.1 ops) k).1.2 = none →
      (GetVoter (run NewVoterList.1 ops) k).1.1.VoterId = k) := by
  have hinv := key_is_VoterId_run ops NewVoterList.1 key_is_VoterId_fresh
  refine ⟨hinv k, ?_⟩
  intro hok
  cases hl : (run NewVoterList.1 ops).Voters.lookup k with
  | none =>
    have habs : k ∉ (run NewVoterList.1 ops).Voters := AList.lookup_eq_none.mp hl
    rw [GetVoter_absent _ k habs] at hok
    cases hok
  | some r =>
    rw [GetVoter_of_lookup _ k r hl]
    exact hinv k r hl

/-- C22 on a sequence: voter 1 is added, updated with another record for 1 and
given a poll, voter 3 is added; `GetVoter 1` succeeds and the record it
returns has `VoterId = 1`. -/
theorem stored_record_has_its_key_witness :
    (GetVoter (run NewVoterList.1
      [Op.addVoter voterA, Op.updateVoter voterA2, Op.addPoll 1 (entry 9 9),
       Op.addVoter voterDup]) 1).1.2 = none ∧
    (GetVoter (run NewVoterList.1
      [Op.addVoter voterA, Op.updateVoter voterA2, Op.addPoll 1 (entry 9 9),
       Op.addVoter voterDup]) 1).1.1.VoterId = 1 :=
  ⟨by decide,
    (stored_record_has_its_key
      [Op.addVoter voterA, Op.updateVoter voterA2, Op.addPoll 1 (entry 9 9),
       Op.addVoter voterDup] 1).2 (by decide)⟩

end db

/-! ## The two stores agree -/

namespace todoapi

/-- C24: for every store and all arguments, `NewVoterList`, `AddVoter`,
`DeleteVoter`, `DeleteAll`, `UpdateVoter`, `GetVoter` and `GetAllVoters` of
the legacy store return what the operations of the same name of
`src/db/voter.go` return (the same value, and no error or the same error) and
leave the same store. -/
theorem legacy_store_agrees (s : db.VoterList) (r : db.Voter) (id : Nat) :
    NewVoterList = db.NewVoterList ∧
    AddVoter s r = db.AddVoter s r ∧
    DeleteVoter s id = db.DeleteVoter s id ∧
    DeleteAll s = db.DeleteAll s ∧
    UpdateVoter s r = db.UpdateVoter s r ∧
    GetVoter s id = db.GetVoter s id ∧
    GetAllVoters s = db.GetAllVoters s :=
  ⟨rfl, rfl, rfl, rfl, rfl, rfl, rfl⟩

end todoapi
